import Mathlib

/-!
Shallow embedding of the physics-driven animation core of the daisy
repository (entrance sequencer, state manager, petal system, stem,
flower core, wind field), together with theorems settling the frozen
claims about it.

Conventions: JavaScript numbers are modelled as `ℚ` where the code only
adds, compares and clamps (timers, state machines, scheduled delays) and
as `ℝ` where trigonometry or square roots occur (geometry, physics).
`performance.now()` is passed explicitly as a `now`/`time` argument.
`Math.random()` draws are passed explicitly as parameters in `[0,1]`.
Callbacks are modelled as emitted event lists.
-/

namespace Daisy

/-! ## Configuration (`config.js`) -/

/-- `TIMING.stageX` windows, milliseconds (field `end` is `stop` here,
`end` being a Lean keyword). -/
structure StageWindow where
  start : ℚ
  stop : ℚ
deriving DecidableEq, Repr

def stageA : StageWindow := ⟨0, 1500⟩
def stageB : StageWindow := ⟨1500, 4000⟩
def stageC : StageWindow := ⟨4000, 7000⟩
def stageD : StageWindow := ⟨7000, 9000⟩

def rippleDelay : ℕ := 40
def idleTimeout : ℚ := 10000
def curiosityDuration : ℚ := 5000
def nightShiftThreshold : ℚ := 90000
def nightTransitionDuration : ℚ := 60000

def petalCount : ℕ := 36

/-! ## EntranceAnimation

State machine from `EntranceAnimation.js`.  `start`/`update` return the
new state together with the list of stage callbacks fired during the
call, in firing order. -/

inductive Stage where
  | A | B | C | D | complete
deriving DecidableEq, Repr

structure EntranceState where
  startTime : ℚ
  isPlaying : Bool
  isComplete : Bool
  currentStage : Option Stage
  triggeredA : Bool
  triggeredB : Bool
  triggeredC : Bool
  triggeredD : Bool
deriving DecidableEq, Repr

def entranceInit : EntranceState :=
  { startTime := 0, isPlaying := false, isComplete := false, currentStage := none
    triggeredA := false, triggeredB := false, triggeredC := false, triggeredD := false }

def entranceStart (now : ℚ) (e : EntranceState) : EntranceState × List Stage :=
  ({ e with startTime := now, isPlaying := true, currentStage := some .A, triggeredA := true },
   [Stage.A])

def entranceUpdate (now : ℚ) (e : EntranceState) : EntranceState × List Stage :=
  if e.isPlaying = false ∨ e.isComplete = true then (e, []) else
  let elapsed := now - e.startTime
  let s1 := if e.triggeredB = false ∧ stageB.start ≤ elapsed then
      ({ e with currentStage := some .B, triggeredB := true }, [Stage.B]) else (e, [])
  let s2 := if s1.1.triggeredC = false ∧ stageC.start ≤ elapsed then
      ({ s1.1 with currentStage := some .C, triggeredC := true }, s1.2 ++ [Stage.C]) else s1
  let s3 := if s2.1.triggeredD = false ∧ stageD.start ≤ elapsed then
      ({ s2.1 with currentStage := some .D, triggeredD := true }, s2.2 ++ [Stage.D]) else s2
  if stageD.stop ≤ elapsed then
    ({ s3.1 with isPlaying := false, isComplete := true, currentStage := some .complete },
     s3.2 ++ [Stage.complete])
  else s3

/-- `start()` at clock time `t0` followed by one `update()` per entry of
`ns` (each entry an absolute clock time); accumulates the fired callbacks. -/
def entranceRun (t0 : ℚ) (ns : List ℚ) : EntranceState × List Stage :=
  ns.foldl (fun p n => let s := entranceUpdate n p.1; (s.1, p.2 ++ s.2))
    (entranceStart t0 entranceInit)

def fullStageList : List Stage := [Stage.A, Stage.B, Stage.C, Stage.D, Stage.complete]

/-- The canonical callback trace once the largest elapsed time seen is `m`. -/
def stageTrace (m : ℚ) : List Stage :=
  [Stage.A] ++ (if stageB.start ≤ m then [Stage.B] else [])
    ++ (if stageC.start ≤ m then [Stage.C] else [])
    ++ (if stageD.start ≤ m then [Stage.D] else [])
    ++ (if stageD.stop ≤ m then [Stage.complete] else [])

def currentStageOf (m : ℚ) : Option Stage :=
  if stageD.stop ≤ m then some .complete
  else if stageD.start ≤ m then some .D
  else if stageC.start ≤ m then some .C
  else if stageB.start ≤ m then some .B
  else some .A

/-- The state the sequencer is in once the largest elapsed time seen is `m`. -/
def entranceShape (t0 m : ℚ) : EntranceState :=
  { startTime := t0
    isPlaying := !decide (stageD.stop ≤ m)
    isComplete := decide (stageD.stop ≤ m)
    currentStage := currentStageOf m
    triggeredA := true
    triggeredB := decide (stageB.start ≤ m)
    triggeredC := decide (stageC.start ≤ m)
    triggeredD := decide (stageD.start ≤ m) }

/-- The callbacks one `update` at elapsed time `e` fires when the largest
elapsed time seen before it is `m`. -/
def newStageTrace (m e : ℚ) : List Stage :=
  (if ¬stageD.stop ≤ m ∧ ¬stageB.start ≤ m ∧ stageB.start ≤ e then [Stage.B] else [])
    ++ (if ¬stageD.stop ≤ m ∧ ¬stageC.start ≤ m ∧ stageC.start ≤ e then [Stage.C] else [])
    ++ (if ¬stageD.stop ≤ m ∧ ¬stageD.start ≤ m ∧ stageD.start ≤ e then [Stage.D] else [])
    ++ (if ¬stageD.stop ≤ m ∧ stageD.stop ≤ e then [Stage.complete] else [])

def entranceMaxElapsed (t0 : ℚ) (ns : List ℚ) : ℚ :=
  ns.foldl (fun m n => max m (n - t0)) 0

lemma entranceUpdate_shape (t0 m n : ℚ) :
    entranceUpdate n (entranceShape t0 m) =
      (entranceShape t0 (max m (n - t0)), newStageTrace m (n - t0)) := by
  set e := n - t0 with he
  by_cases h9m : stageD.stop ≤ m
  · have h7m : stageD.start ≤ m := by simp only [stageD] at *; linarith
    have h4m : stageC.start ≤ m := by simp only [stageC, stageD] at *; linarith
    have h1m : stageB.start ≤ m := by simp only [stageB, stageD] at *; linarith
    have h9x : stageD.stop ≤ max m e := le_max_of_le_left h9m
    have h7x : stageD.start ≤ max m e := le_max_of_le_left h7m
    have h4x : stageC.start ≤ max m e := le_max_of_le_left h4m
    have h1x : stageB.start ≤ max m e := le_max_of_le_left h1m
    simp [entranceUpdate, entranceShape, newStageTrace, currentStageOf,
      h9m, h7m, h4m, h1m, h9x, h7x, h4x, h1x]
  · by_cases h1m : stageB.start ≤ m <;> by_cases h4m : stageC.start ≤ m <;>
      by_cases h7m : stageD.start ≤ m <;>
      by_cases h1e : stageB.start ≤ e <;> by_cases h4e : stageC.start ≤ e <;>
      by_cases h7e : stageD.start ≤ e <;> by_cases h9e : stageD.stop ≤ e <;>
      first
        | (exfalso; simp only [stageB, stageC, stageD] at *; linarith)
        | (simp [entranceUpdate, entranceShape, newStageTrace, currentStageOf, le_max_iff,
            h9m, h1m, h4m, h7m, h1e, h4e, h7e, h9e])

lemma stageTrace_append (m e : ℚ) :
    stageTrace m ++ newStageTrace m e = stageTrace (max m e) := by
  by_cases h1m : stageB.start ≤ m <;> by_cases h4m : stageC.start ≤ m <;>
    by_cases h7m : stageD.start ≤ m <;> by_cases h9m : stageD.stop ≤ m <;>
    by_cases h1e : stageB.start ≤ e <;> by_cases h4e : stageC.start ≤ e <;>
    by_cases h7e : stageD.start ≤ e <;> by_cases h9e : stageD.stop ≤ e <;>
    first
      | (exfalso; simp only [stageB, stageC, stageD] at *; linarith)
      | simp [stageTrace, newStageTrace, le_max_iff, h1m, h4m, h7m, h9m, h1e, h4e, h7e, h9e]

lemma entranceRun_foldl (t0 : ℚ) (ns : List ℚ) (m : ℚ) :
    ns.foldl (fun p n => let s := entranceUpdate n p.1; (s.1, p.2 ++ s.2))
        (entranceShape t0 m, stageTrace m) =
      (entranceShape t0 (ns.foldl (fun a n => max a (n - t0)) m),
       stageTrace (ns.foldl (fun a n => max a (n - t0)) m)) := by
  induction ns generalizing m with
  | nil => rfl
  | cons n ns ih =>
      simp only [List.foldl_cons, entranceUpdate_shape, stageTrace_append]
      exact ih (max m (n - t0))

lemma foldlMax_init_le (t0 a : ℚ) (ns : List ℚ) :
    a ≤ ns.foldl (fun m n => max m (n - t0)) a := by
  induction ns generalizing a with
  | nil => exact le_refl a
  | cons n ns ih => exact le_trans (le_max_left _ _) (ih (max a (n - t0)))

lemma mem_le_foldlMax (t0 a : ℚ) (ns : List ℚ) :
    ∀ n ∈ ns, n - t0 ≤ ns.foldl (fun m n => max m (n - t0)) a := by
  induction ns generalizing a with
  | nil => intro n hn; exact absurd hn (List.not_mem_nil n)
  | cons x ns ih =>
      intro n hn
      rcases List.mem_cons.mp hn with h | h
      · subst h
        exact le_trans (le_max_right a (n - t0)) (foldlMax_init_le t0 _ ns)
      · exact ih (max a (x - t0)) n h

/-- C1: after `start()`, for every sequence of `update()` calls at arbitrary
elapsed times, the cumulative callback trace is exactly the canonical trace
determined by the largest elapsed time seen: an initial segment of
`[A, B, C, D, Complete]`.  Hence each of the five stage callbacks fires at
most once, in the order A, B, C, D, Complete, re-entrant updates after a
transition never refire a callback, no callback fires after Complete, and
once an update is observed at or past the Stage-D end threshold every one
of the five callbacks has fired exactly once. -/
theorem entrance_stage_callbacks_exactly_once (t0 : ℚ) (ns : List ℚ) :
    entranceRun t0 ns =
        (entranceShape t0 (entranceMaxElapsed t0 ns),
         stageTrace (entranceMaxElapsed t0 ns)) ∧
      (∃ k, stageTrace (entranceMaxElapsed t0 ns) = fullStageList.take k) ∧
      (stageTrace (entranceMaxElapsed t0 ns)).Nodup ∧
      ((∃ n ∈ ns, stageD.stop ≤ n - t0) →
        stageTrace (entranceMaxElapsed t0 ns) = fullStageList) := by
  have hstart : entranceStart t0 entranceInit = (entranceShape t0 0, stageTrace 0) := by
    norm_num [entranceStart, entranceInit, entranceShape, currentStageOf, stageTrace,
      stageB, stageC, stageD]
  have hrun : entranceRun t0 ns =
      (entranceShape t0 (entranceMaxElapsed t0 ns),
       stageTrace (entranceMaxElapsed t0 ns)) := by
    unfold entranceRun entranceMaxElapsed
    rw [hstart]
    exact entranceRun_foldl t0 ns 0
  have htake : ∃ k, stageTrace (entranceMaxElapsed t0 ns) = fullStageList.take k := by
    by_cases h1 : stageB.start ≤ entranceMaxElapsed t0 ns <;>
      by_cases h4 : stageC.start ≤ entranceMaxElapsed t0 ns <;>
      by_cases h7 : stageD.start ≤ entranceMaxElapsed t0 ns <;>
      by_cases h9 : stageD.stop ≤ entranceMaxElapsed t0 ns <;>
      first
        | (exfalso; simp only [stageB, stageC, stageD] at *; linarith)
        | (refine ⟨5, ?_⟩; simp [stageTrace, h1, h4, h7, h9] <;> decide)
        | (refine ⟨4, ?_⟩; simp [stageTrace, h1, h4, h7, h9] <;> decide)
        | (refine ⟨3, ?_⟩; simp [stageTrace, h1, h4, h7, h9] <;> decide)
        | (refine ⟨2, ?_⟩; simp [stageTrace, h1, h4, h7, h9] <;> decide)
        | (refine ⟨1, ?_⟩; simp [stageTrace, h1, h4, h7, h9] <;> decide)
  refine ⟨hrun, htake, ?_, ?_⟩
  · rcases htake with ⟨k, hk⟩
    rw [hk]
    exact List.Nodup.sublist (List.take_sublist k fullStageList) (by decide)
  · rintro ⟨n, hn, h9⟩
    have hM : stageD.stop ≤ entranceMaxElapsed t0 ns :=
      le_trans h9 (mem_le_foldlMax t0 0 ns n hn)
    have h7 : stageD.start ≤ entranceMaxElapsed t0 ns := by
      simp only [stageD] at *; linarith
    have h4 : stageC.start ≤ entranceMaxElapsed t0 ns := by
      simp only [stageC, stageD] at *; linarith
    have h1 : stageB.start ≤ entranceMaxElapsed t0 ns := by
      simp only [stageB, stageD] at *; linarith
    simp [stageTrace, fullStageList, hM, h7, h4, h1]

/-- Witness for C1 at the spec's test trace: stepping through elapsed times
0, 1499, 1500, 4000, 7000, 9000 ms fires all five callbacks, each once, in
order. -/
theorem entrance_stage_callbacks_exactly_once_witness :
    (entranceRun 0 [0, 1499, 1500, 4000, 7000, 9000]).2 = fullStageList := by
  have h := entrance_stage_callbacks_exactly_once 0 [0, 1499, 1500, 4000, 7000, 9000]
  have hfull := h.2.2.2 ⟨9000, by decide, by norm_num [stageD]⟩
  exact (congrArg Prod.snd h.1).trans hfull

/-! ## StateManager

Session state machine from the StateManager module (idle charm, curiosity
mode, night shift).  `performance.now()` is the explicit `now` argument;
callbacks are events. -/

inductive SMEvent where
  | idleStart
  | idleEnd
  | curiosityStart (x y : ℚ)
  | curiosityEnd
  | nightShift (progress : ℚ)
deriving DecidableEq, Repr

structure SMState where
  lastInteractionTime : ℚ
  isIdle : Bool
  interactionCount : ℕ
  interactionTypes : Finset String
  curiosityActive : Bool
  curiosityEndTime : ℚ
  lastCursorX : ℚ
  lastCursorY : ℚ
  sessionStartTime : ℚ
  nightShiftActive : Bool
  nightShiftProgress : ℚ
deriving DecidableEq

/-- Constructor: both timers start at the construction-time clock value. -/
def initSM (now : ℚ) : SMState :=
  { lastInteractionTime := now, isIdle := false, interactionCount := 0
    interactionTypes := ∅, curiosityActive := false, curiosityEndTime := 0
    lastCursorX := 0, lastCursorY := 0, sessionStartTime := now
    nightShiftActive := false, nightShiftProgress := 0 }

def activateCuriosity (now : ℚ) (s : SMState) : SMState × List SMEvent :=
  ({ s with curiosityActive := true, curiosityEndTime := now + curiosityDuration },
   [SMEvent.curiosityStart s.lastCursorX s.lastCursorY])

def recordInteraction (ty : String) (cursorX cursorY now : ℚ) (s : SMState) :
    SMState × List SMEvent :=
  let wasIdle := s.isIdle
  let s1 := { s with lastInteractionTime := now, isIdle := false }
  let idleEvents := if wasIdle = true then [SMEvent.idleEnd] else []
  let s2 := { s1 with interactionTypes := insert ty s1.interactionTypes
                      interactionCount := s1.interactionCount + 1
                      lastCursorX := cursorX, lastCursorY := cursorY }
  if 3 ≤ s2.interactionTypes.card ∧ s2.curiosityActive = false then
    let r := activateCuriosity now s2
    (r.1, idleEvents ++ r.2)
  else (s2, idleEvents)

/-- `update()`, idle block. -/
def smUpdateIdle (now : ℚ) (s : SMState) : SMState × List SMEvent :=
  if s.isIdle = false ∧ idleTimeout < now - s.lastInteractionTime then
    ({ s with isIdle := true }, [SMEvent.idleStart])
  else (s, [])

/-- `update()`, curiosity-expiration block. -/
def smUpdateCuriosity (now : ℚ) (s : SMState) : SMState × List SMEvent :=
  if s.curiosityActive = true ∧ s.curiosityEndTime ≤ now then
    ({ s with curiosityActive := false, interactionTypes := ∅ }, [SMEvent.curiosityEnd])
  else (s, [])

/-- `update()`, night-shift block. -/
def smUpdateNight (now : ℚ) (s : SMState) : SMState × List SMEvent :=
  let sessionDuration := now - s.sessionStartTime
  let s3 :=
    if s.nightShiftActive = false ∧ nightShiftThreshold < sessionDuration then
      { s with nightShiftActive := true }
    else s
  if s3.nightShiftActive = true then
    let nightStartTime := s3.sessionStartTime + nightShiftThreshold
    let nightProgress := (now - nightStartTime) / nightTransitionDuration
    if s3.nightShiftProgress < nightProgress then
      let p := min 1 nightProgress
      ({ s3 with nightShiftProgress := p }, [SMEvent.nightShift p])
    else (s3, [])
  else (s3, [])

/-- `update()`: the three blocks run in sequence, in source order. -/
def smUpdate (now : ℚ) (s : SMState) : SMState × List SMEvent :=
  let r1 := smUpdateIdle now s
  let r2 := smUpdateCuriosity now r1.1
  let r3 := smUpdateNight now r2.1
  (r3.1, r1.2 ++ r2.2 ++ r3.2)

def getNightProgress (s : SMState) : ℚ := s.nightShiftProgress

inductive SMInput where
  | record (ty : String) (x y now : ℚ)
  | update (now : ℚ)

def smStep : SMInput → SMState → SMState × List SMEvent
  | .record ty x y now, s => recordInteraction ty x y now s
  | .update now, s => smUpdate now s

def runSM (s : SMState) (is : List SMInput) : SMState × List SMEvent :=
  is.foldl (fun p i => let r := smStep i p.1; (r.1, p.2 ++ r.2)) (s, [])

def runSMUpdates (s : SMState) (ts : List ℚ) : SMState :=
  ts.foldl (fun s t => (smUpdate t s).1) s

def isCuriosityStartEvent : SMEvent → Bool
  | .curiosityStart _ _ => true
  | _ => false

/-- The unclamped (raw) night-shift progress an `update` at clock `now` computes. -/
def rawNight (now : ℚ) (s : SMState) : ℚ :=
  (now - (s.sessionStartTime + nightShiftThreshold)) / nightTransitionDuration

lemma smUpdateIdle_night (now : ℚ) (s : SMState) :
    (smUpdateIdle now s).1.sessionStartTime = s.sessionStartTime ∧
    (smUpdateIdle now s).1.nightShiftActive = s.nightShiftActive ∧
    (smUpdateIdle now s).1.nightShiftProgress = s.nightShiftProgress ∧
    ∀ p, SMEvent.nightShift p ∉ (smUpdateIdle now s).2 := by
  unfold smUpdateIdle
  split_ifs <;> simp

lemma smUpdateCuriosity_night (now : ℚ) (s : SMState) :
    (smUpdateCuriosity now s).1.sessionStartTime = s.sessionStartTime ∧
    (smUpdateCuriosity now s).1.nightShiftActive = s.nightShiftActive ∧
    (smUpdateCuriosity now s).1.nightShiftProgress = s.nightShiftProgress ∧
    ∀ p, SMEvent.nightShift p ∉ (smUpdateCuriosity now s).2 := by
  unfold smUpdateCuriosity
  split_ifs <;> simp

lemma smUpdateNight_char (now : ℚ) (s : SMState) :
    (smUpdateNight now s).1.sessionStartTime = s.sessionStartTime ∧
    ((smUpdateNight now s).1.nightShiftActive = true ↔
      (s.nightShiftActive = true ∨ nightShiftThreshold < now - s.sessionStartTime)) ∧
    (smUpdateNight now s).1.nightShiftProgress =
      (if (s.nightShiftActive = true ∨ nightShiftThreshold < now - s.sessionStartTime)
          ∧ s.nightShiftProgress < rawNight now s
       then min 1 (rawNight now s) else s.nightShiftProgress) ∧
    (∀ p, SMEvent.nightShift p ∈ (smUpdateNight now s).2 ↔
      ((s.nightShiftActive = true ∨ nightShiftThreshold < now - s.sessionStartTime)
        ∧ s.nightShiftProgress < rawNight now s ∧ p = min 1 (rawNight now s))) := by
  unfold smUpdateNight rawNight
  by_cases hA : s.nightShiftActive = true <;>
    by_cases hT : nightShiftThreshold < now - s.sessionStartTime <;>
    simp [hA, hT] <;> split_ifs <;> simp_all

lemma smUpdate_night (now : ℚ) (s : SMState) :
    (smUpdate now s).1.sessionStartTime = s.sessionStartTime ∧
    ((smUpdate now s).1.nightShiftActive = true ↔
      (s.nightShiftActive = true ∨ nightShiftThreshold < now - s.sessionStartTime)) ∧
    (smUpdate now s).1.nightShiftProgress =
      (if (s.nightShiftActive = true ∨ nightShiftThreshold < now - s.sessionStartTime)
          ∧ s.nightShiftProgress < rawNight now s
       then min 1 (rawNight now s) else s.nightShiftProgress) ∧
    (∀ p, SMEvent.nightShift p ∈ (smUpdate now s).2 ↔
      ((s.nightShiftActive = true ∨ nightShiftThreshold < now - s.sessionStartTime)
        ∧ s.nightShiftProgress < rawNight now s ∧ p = min 1 (rawNight now s))) := by
  have h1 := smUpdateIdle_night now s
  have h2 := smUpdateCuriosity_night now (smUpdateIdle now s).1
  have h3 := smUpdateNight_char now (smUpdateCuriosity now (smUpdateIdle now s).1).1
  have hsess : (smUpdateCuriosity now (smUpdateIdle now s).1).1.sessionStartTime
      = s.sessionStartTime := by rw [h2.1, h1.1]
  have hact : (smUpdateCuriosity now (smUpdateIdle now s).1).1.nightShiftActive
      = s.nightShiftActive := by rw [h2.2.1, h1.2.1]
  have hprog : (smUpdateCuriosity now (smUpdateIdle now s).1).1.nightShiftProgress
      = s.nightShiftProgress := by rw [h2.2.2.1, h1.2.2.1]
  have hraw : rawNight now (smUpdateCuriosity now (smUpdateIdle now s).1).1
      = rawNight now s := by unfold rawNight; rw [hsess]
  refine ⟨?_, ?_, ?_, ?_⟩
  · show (smUpdateNight now _).1.sessionStartTime = _
    rw [h3.1, hsess]
  · show (smUpdateNight now _).1.nightShiftActive = true ↔ _
    rw [h3.2.1, hsess, hact]
  · show (smUpdateNight now _).1.nightShiftProgress = _
    rw [h3.2.2.1, hsess, hact, hprog, hraw]
  · intro p
    show SMEvent.nightShift p ∈ _ ++ _ ++ _ ↔ _
    rw [List.mem_append, List.mem_append]
    have e1 := h1.2.2.2 p
    have e2 := h2.2.2.2 p
    have e3 := h3.2.2.2 p
    rw [hsess, hact, hprog, hraw] at e3
    constructor
    · rintro ((h | h) | h)
      · exact absurd h e1
      · exact absurd h e2
      · exact e3.mp h
    · intro h
      exact Or.inr (e3.mpr h)


lemma nightMinStep (p r r' : ℚ) (hr : r ≤ r') (hp : p = min 1 r) :
    (if p < r' then min 1 r' else p) = min 1 r' := by
  split_ifs with h
  · rfl
  · push_neg at h
    have hpr : p ≤ r' := hp ▸ le_trans (min_le_right 1 r) hr
    have hpe : p = r' := le_antisymm hpr h
    rw [hpe] at hp ⊢
    exact (min_eq_right (hp ▸ min_le_left 1 r)).symm

/-- Characterization of the night fields once the largest clock value an
`update` has seen is `m` (session started at `t0`). -/
def nightChar (t0 m : ℚ) (s : SMState) : Prop :=
  s.sessionStartTime = t0 ∧
  (s.nightShiftActive = true ↔ nightShiftThreshold < m - t0) ∧
  s.nightShiftProgress =
    (if nightShiftThreshold < m - t0
     then min 1 ((m - (t0 + nightShiftThreshold)) / nightTransitionDuration) else 0)

lemma nightChar_init (t0 : ℚ) : nightChar t0 t0 (initSM t0) := by
  refine ⟨rfl, ?_, ?_⟩ <;> norm_num [initSM, nightShiftThreshold]

lemma nightChar_step (t0 m now : ℚ) (s : SMState) (hc : nightChar t0 m s)
    (hm : m ≤ now) : nightChar t0 now ((smUpdate now s).1) := by
  obtain ⟨hs, ha, hp⟩ := hc
  have h := smUpdate_night now s
  have hW : (0:ℚ) < nightTransitionDuration := by norm_num [nightTransitionDuration]
  refine ⟨by rw [h.1, hs], ?_, ?_⟩
  · rw [h.2.1, hs, ha]
    constructor
    · rintro (h' | h')
      · linarith
      · exact h'
    · exact Or.inr
  · rw [h.2.2.1]
    unfold rawNight
    rw [hs]
    simp only [ha]
    by_cases hTn : nightShiftThreshold < now - t0
    · rw [if_pos hTn]
      by_cases hTm : nightShiftThreshold < m - t0
      · rw [if_pos hTm] at hp
        have hraw : (m - (t0 + nightShiftThreshold)) / nightTransitionDuration
            ≤ (now - (t0 + nightShiftThreshold)) / nightTransitionDuration :=
          (div_le_div_iff_of_pos_right hW).mpr (by linarith)
        have := nightMinStep s.nightShiftProgress _ _ hraw hp
        simp only [hTm, hTn, true_or, true_and]
        exact this
      · rw [if_neg hTm] at hp
        have hraw : (0:ℚ) < (now - (t0 + nightShiftThreshold)) / nightTransitionDuration :=
          div_pos (by linarith) hW
        simp only [hTm, hTn, or_true, true_and, hp]
        rw [if_pos hraw]
    · have hTm : ¬nightShiftThreshold < m - t0 := fun hq => hTn (by linarith)
      rw [if_neg hTn]
      rw [if_neg hTm] at hp
      simp only [hTm, hTn, or_self, false_and, if_false]
      exact hp

lemma nightChar_run (t0 : ℚ) (ts : List ℚ) :
    ∀ (m : ℚ) (s : SMState), nightChar t0 m s → List.Chain (· ≤ ·) m ts →
      nightChar t0 (ts.getLastD m) (runSMUpdates s ts) := by
  induction ts with
  | nil => intro m s hc _; simpa [runSMUpdates] using hc
  | cons t ts ih =>
      intro m s hc hch
      rcases List.chain_cons.mp hch with ⟨hmt, hch'⟩
      have hstep := nightChar_step t0 m t s hc hmt
      have hres := ih t ((smUpdate t s).1) hstep hch'
      rw [List.getLastD_cons]
      have hrun : runSMUpdates s (t :: ts) = runSMUpdates (smUpdate t s).1 ts := by
        simp [runSMUpdates]
      rw [hrun]
      exact hres

lemma night_inactive_run (t0 : ℚ) (ts : List ℚ) :
    ∀ s : SMState, s.sessionStartTime = t0 → s.nightShiftActive = false →
      s.nightShiftProgress = 0 → (∀ x ∈ ts, x - t0 ≤ nightShiftThreshold) →
      (runSMUpdates s ts).nightShiftProgress = 0 := by
  induction ts with
  | nil => intro s _ _ hp _; simpa [runSMUpdates] using hp
  | cons t ts ih =>
      intro s hs ha hp hts
      have h := smUpdate_night t s
      have hcond : ¬(s.nightShiftActive = true ∨ nightShiftThreshold < t - s.sessionStartTime) := by
        rintro (h' | h')
        · rw [ha] at h'; exact Bool.false_ne_true h'
        · rw [hs] at h'
          exact absurd (hts t (List.mem_cons_self t ts)) (not_le.mpr h')
      have ha' : (smUpdate t s).1.nightShiftActive = false := by
        rcases Bool.eq_false_or_eq_true (smUpdate t s).1.nightShiftActive with h' | h'
        · exact absurd (h.2.1.mp h') hcond
        · exact h'
      have hp' : (smUpdate t s).1.nightShiftProgress = 0 := by
        rw [h.2.2.1, if_neg (fun hq => hcond hq.1)]
        exact hp
      have hrun : runSMUpdates s (t :: ts) = runSMUpdates (smUpdate t s).1 ts := by
        simp [runSMUpdates]
      rw [hrun]
      exact ih (smUpdate t s).1 (by rw [h.1, hs]) ha' hp'
        (fun x hx => hts x (List.mem_cons_of_mem t hx))

/-- C6 (amended): night-shift progress (a) never decreases on any `update`
and stays in `[0,1]`; (b) remains 0 while every update's session-elapsed
time is at most the night-shift threshold; (c) along any non-decreasing
sequence of update times it equals the linear ramp
`min 1 ((last - start - threshold) / transitionDuration)` once past the
threshold (so it advances linearly and saturates at 1); and (d) the
`onNightShift` callback fires only when the stored progress strictly
increases or has already saturated at 1, in which case it re-fires with
value 1 (the code compares the raw, unclamped progress to the stored one,
so after saturation it keeps firing even though the stored progress no
longer increases). -/
theorem night_shift_progress_ramp :
    (∀ (s : SMState) (now : ℚ), s.nightShiftProgress ≤ 1 →
        s.nightShiftProgress ≤ getNightProgress (smUpdate now s).1 ∧
          getNightProgress (smUpdate now s).1 ≤ 1) ∧
    (∀ (t0 : ℚ) (ts : List ℚ), (∀ x ∈ ts, x - t0 ≤ nightShiftThreshold) →
        getNightProgress (runSMUpdates (initSM t0) ts) = 0) ∧
    (∀ (t0 : ℚ) (ts : List ℚ), List.Chain (· ≤ ·) t0 ts →
        getNightProgress (runSMUpdates (initSM t0) ts) =
          (if nightShiftThreshold < ts.getLastD t0 - t0
           then min 1 ((ts.getLastD t0 - (t0 + nightShiftThreshold)) / nightTransitionDuration)
           else 0)) ∧
    (∀ (s : SMState) (now p : ℚ), s.nightShiftProgress ≤ 1 →
        SMEvent.nightShift p ∈ (smUpdate now s).2 →
        s.nightShiftProgress < getNightProgress (smUpdate now s).1 ∨
          (s.nightShiftProgress = 1 ∧ p = 1)) := by
  refine ⟨?_, ?_, ?_, ?_⟩
  · intro s now h1
    have h := smUpdate_night now s
    unfold getNightProgress
    rw [h.2.2.1]
    split_ifs with hc
    · exact ⟨le_min h1 (le_of_lt hc.2), min_le_left 1 _⟩
    · exact ⟨le_refl _, h1⟩
  · intro t0 ts hts
    exact night_inactive_run t0 ts (initSM t0) rfl rfl rfl hts
  · intro t0 ts hch
    exact (nightChar_run t0 ts t0 (initSM t0) (nightChar_init t0) hch).2.2
  · intro s now p h1 hev
    have h := smUpdate_night now s
    obtain ⟨hcond, hlt, hpe⟩ := (h.2.2.2 p).mp hev
    unfold getNightProgress
    rw [h.2.2.1, if_pos ⟨hcond, hlt⟩]
    rcases lt_or_le s.nightShiftProgress (min 1 (rawNight now s)) with hlt2 | hle2
    · exact Or.inl hlt2
    · have hmin : min 1 (rawNight now s) = 1 := by
        rcases min_cases 1 (rawNight now s) with ⟨he, _⟩ | ⟨he, _⟩
        · exact he
        · exact absurd (lt_of_le_of_lt (he ▸ hle2) hlt) (lt_irrefl _)
      have : s.nightShiftProgress = 1 := le_antisymm h1 (hmin ▸ hle2)
      exact Or.inr ⟨this, hpe.trans hmin⟩

/-- C6 counterexample to the claim as stated: with session start 0, an
`update` at 200000 ms saturates the progress at 1 (and fires the callback);
a further `update` at 300000 ms fires the `onNightShift` callback again
with value 1 even though `getNightProgress()` does not increase (it stays
at 1), because the code compares the raw, unclamped progress against the
stored one. -/
theorem night_shift_callback_without_increase :
    getNightProgress (smUpdate 200000 (initSM 0)).1 = 1 ∧
    getNightProgress (smUpdate 300000 (smUpdate 200000 (initSM 0)).1).1 = 1 ∧
    SMEvent.nightShift 1 ∈ (smUpdate 300000 (smUpdate 200000 (initSM 0)).1).2 := by
  norm_num [smUpdate, smUpdateIdle, smUpdateCuriosity, smUpdateNight, initSM,
    getNightProgress, idleTimeout, nightShiftThreshold, nightTransitionDuration, min_def]

/-- Witness for C6 at concrete inputs: with session start 0, updates at
50000 ms leave progress at 0; updates at 100000 then 130000 ms yield
progress `(130000 - 90000) / 60000` clamped, i.e. `2/3`. -/
theorem night_shift_progress_ramp_witness :
    getNightProgress (runSMUpdates (initSM 0) [50000]) = 0 ∧
    getNightProgress (runSMUpdates (initSM 0) [100000, 130000]) = 2/3 := by
  have h := night_shift_progress_ramp
  constructor
  · exact h.2.1 0 [50000] (by norm_num [nightShiftThreshold])
  · have h3 := h.2.2.1 0 [100000, 130000] (by norm_num [List.chain_cons])
    rw [h3]
    norm_num [nightShiftThreshold, nightTransitionDuration]

lemma recordInteraction_char (ty : String) (x y now : ℚ) (s : SMState) :
    (recordInteraction ty x y now s).1.interactionTypes = insert ty s.interactionTypes ∧
    ((recordInteraction ty x y now s).1.curiosityActive = true ↔
      (s.curiosityActive = true ∨ 3 ≤ (insert ty s.interactionTypes).card)) ∧
    (recordInteraction ty x y now s).1.curiosityEndTime =
      (if 3 ≤ (insert ty s.interactionTypes).card ∧ s.curiosityActive = false
       then now + curiosityDuration else s.curiosityEndTime) ∧
    (recordInteraction ty x y now s).1.isIdle = false ∧
    ((recordInteraction ty x y now s).2.filter isCuriosityStartEvent =
      (if 3 ≤ (insert ty s.interactionTypes).card ∧ s.curiosityActive = false
       then [SMEvent.curiosityStart x y] else [])) ∧
    SMEvent.curiosityEnd ∉ (recordInteraction ty x y now s).2 := by
  unfold recordInteraction activateCuriosity
  by_cases hi : s.isIdle = true <;>
    by_cases hcard : 3 ≤ (insert ty s.interactionTypes).card <;>
    by_cases hact : s.curiosityActive = true <;>
    simp [isCuriosityStartEvent, hi, hcard, hact]

lemma smUpdateIdle_curiosity (now : ℚ) (s : SMState) :
    (smUpdateIdle now s).1.curiosityActive = s.curiosityActive ∧
    (smUpdateIdle now s).1.curiosityEndTime = s.curiosityEndTime ∧
    (smUpdateIdle now s).1.interactionTypes = s.interactionTypes ∧
    (smUpdateIdle now s).2.filter isCuriosityStartEvent = [] ∧
    SMEvent.curiosityEnd ∉ (smUpdateIdle now s).2 := by
  unfold smUpdateIdle
  split_ifs <;> simp [isCuriosityStartEvent]

lemma smUpdateNight_curiosity (now : ℚ) (s : SMState) :
    (smUpdateNight now s).1.curiosityActive = s.curiosityActive ∧
    (smUpdateNight now s).1.curiosityEndTime = s.curiosityEndTime ∧
    (smUpdateNight now s).1.interactionTypes = s.interactionTypes ∧
    (smUpdateNight now s).2.filter isCuriosityStartEvent = [] ∧
    SMEvent.curiosityEnd ∉ (smUpdateNight now s).2 := by
  unfold smUpdateNight
  by_cases hA : s.nightShiftActive = true <;>
    by_cases hT : nightShiftThreshold < now - s.sessionStartTime <;>
    simp [hA, hT, isCuriosityStartEvent] <;> split_ifs <;>
    simp [isCuriosityStartEvent]

lemma smUpdateCuriosity_char (now : ℚ) (s : SMState) :
    ((smUpdateCuriosity now s).1.curiosityActive = true ↔
      (s.curiosityActive = true ∧ ¬s.curiosityEndTime ≤ now)) ∧
    (smUpdateCuriosity now s).1.interactionTypes =
      (if s.curiosityActive = true ∧ s.curiosityEndTime ≤ now then ∅
       else s.interactionTypes) ∧
    (smUpdateCuriosity now s).2.filter isCuriosityStartEvent = [] ∧
    (SMEvent.curiosityEnd ∈ (smUpdateCuriosity now s).2 ↔
      (s.curiosityActive = true ∧ s.curiosityEndTime ≤ now)) := by
  unfold smUpdateCuriosity
  split_ifs <;> simp_all [isCuriosityStartEvent] <;> tauto

lemma smUpdate_curiosity_char (now : ℚ) (s : SMState) :
    ((smUpdate now s).1.curiosityActive = true ↔
      (s.curiosityActive = true ∧ ¬s.curiosityEndTime ≤ now)) ∧
    (smUpdate now s).1.interactionTypes =
      (if s.curiosityActive = true ∧ s.curiosityEndTime ≤ now then ∅
       else s.interactionTypes) ∧
    (smUpdate now s).2.filter isCuriosityStartEvent = [] ∧
    (SMEvent.curiosityEnd ∈ (smUpdate now s).2 ↔
      (s.curiosityActive = true ∧ s.curiosityEndTime ≤ now)) := by
  have h1 := smUpdateIdle_curiosity now s
  have h2 := smUpdateCuriosity_char now (smUpdateIdle now s).1
  have h3 := smUpdateNight_curiosity now
    (smUpdateCuriosity now (smUpdateIdle now s).1).1
  rw [h1.1, h1.2.1, h1.2.2.1] at h2
  have hev : (smUpdate now s).2 =
      (smUpdateIdle now s).2 ++ (smUpdateCuriosity now (smUpdateIdle now s).1).2
        ++ (smUpdateNight now (smUpdateCuriosity now (smUpdateIdle now s).1).1).2 := rfl
  refine ⟨?_, ?_, ?_, ?_⟩
  · show (smUpdateNight now _).1.curiosityActive = true ↔ _
    rw [h3.1]
    exact h2.1
  · show (smUpdateNight now _).1.interactionTypes = _
    rw [h3.2.2.1]
    exact h2.2.1
  · rw [hev, List.filter_append, List.filter_append, h1.2.2.2.1, h2.2.2.1, h3.2.2.2.1]
    rfl
  · rw [hev, List.mem_append, List.mem_append]
    constructor
    · rintro ((h | h) | h)
      · exact absurd h h1.2.2.2.2
      · exact h2.2.2.2.mp h
      · exact absurd h h3.2.2.2.2
    · intro h
      exact Or.inl (Or.inr (h2.2.2.2.mpr h))

lemma runSM_acc (s : SMState) (acc : List SMEvent) (is : List SMInput) :
    is.foldl (fun p i => let r := smStep i p.1; (r.1, p.2 ++ r.2)) (s, acc)
      = ((runSM s is).1, acc ++ (runSM s is).2) := by
  induction is generalizing s acc with
  | nil => simp [runSM]
  | cons i is ih =>
      simp only [runSM, List.foldl_cons]
      rw [ih ((smStep i s).1) (acc ++ (smStep i s).2),
        ih ((smStep i s).1) ([] ++ (smStep i s).2)]
      simp

lemma runSM_cons (s : SMState) (i : SMInput) (is : List SMInput) :
    runSM s (i :: is) =
      ((runSM (smStep i s).1 is).1, (smStep i s).2 ++ (runSM (smStep i s).1 is).2) := by
  unfold runSM
  rw [List.foldl_cons]
  exact runSM_acc (smStep i s).1 ([] ++ (smStep i s).2) is

/-- The C7 interaction scenario: four `recordInteraction` calls with
interaction types `a`, `b`, `c`, `d` at cursor `(x, y)`, then one `update`. -/
def curiosityScenario (t0 x y n1 n2 n3 n4 n5 : ℚ) (a b c d : String) :
    SMState × List SMEvent :=
  runSM (initSM t0)
    [.record a x y n1, .record b x y n2, .record c x y n3,
     .record d x y n4, .update n5]

/-- C7: recording three distinct interaction types activates curiosity
exactly once (one `onCuriosityStart` callback, fired when the third
distinct type arrives); a fourth distinct type while curiosity is active
does not re-trigger it; and once `curiosityDuration` has elapsed, the next
`update()` deactivates curiosity, clears the tracked type set and fires
`onCuriosityEnd`. -/
theorem curiosity_three_types_activate_once
    (t0 x y n1 n2 n3 n4 n5 : ℚ) (a b c d : String)
    (hab : a ≠ b) (hac : a ≠ c) (hbc : b ≠ c)
    (hda : d ≠ a) (hdb : d ≠ b) (hdc : d ≠ c)
    (h5 : n3 + curiosityDuration ≤ n5) :
    (curiosityScenario t0 x y n1 n2 n3 n4 n5 a b c d).2.filter isCuriosityStartEvent
        = [SMEvent.curiosityStart x y] ∧
      SMEvent.curiosityEnd ∈ (curiosityScenario t0 x y n1 n2 n3 n4 n5 a b c d).2 ∧
      (curiosityScenario t0 x y n1 n2 n3 n4 n5 a b c d).1.curiosityActive = false ∧
      (curiosityScenario t0 x y n1 n2 n3 n4 n5 a b c d).1.interactionTypes = ∅ := by
  have hrw : curiosityScenario t0 x y n1 n2 n3 n4 n5 a b c d =
      (let q1 := recordInteraction a x y n1 (initSM t0)
       let q2 := recordInteraction b x y n2 q1.1
       let q3 := recordInteraction c x y n3 q2.1
       let q4 := recordInteraction d x y n4 q3.1
       let q5 := smUpdate n5 q4.1
       (q5.1, q1.2 ++ q2.2 ++ q3.2 ++ q4.2 ++ q5.2)) := by
    show runSM _ _ = _
    rw [runSM_cons, runSM_cons, runSM_cons, runSM_cons, runSM_cons]
    simp [runSM, smStep, List.append_assoc]
  rw [hrw]
  set q1 := recordInteraction a x y n1 (initSM t0) with hq1
  set q2 := recordInteraction b x y n2 q1.1 with hq2
  set q3 := recordInteraction c x y n3 q2.1 with hq3
  set q4 := recordInteraction d x y n4 q3.1 with hq4
  set q5 := smUpdate n5 q4.1 with hq5
  have c1 := recordInteraction_char a x y n1 (initSM t0)
  have c2 := recordInteraction_char b x y n2 q1.1
  have c3 := recordInteraction_char c x y n3 q2.1
  have c4 := recordInteraction_char d x y n4 q3.1
  have c5 := smUpdate_curiosity_char n5 q4.1
  -- type sets and their cards
  have ht1 : q1.1.interactionTypes = insert a ∅ := c1.1
  have ht2 : q2.1.interactionTypes = insert b (insert a ∅) := by
    rw [← hq2] at c2
    rw [c2.1, ht1]
  have ht3 : q3.1.interactionTypes = insert c (insert b (insert a ∅)) := by
    rw [← hq3] at c3
    rw [c3.1, ht2]
  have hm2 : b ∉ insert a (∅ : Finset String) := by simp [Ne.symm hab]
  have hm3 : c ∉ insert b (insert a (∅ : Finset String)) := by
    simp [Ne.symm hac, Ne.symm hbc]
  have hcard1 : (insert a (∅ : Finset String)).card = 1 := by simp
  have hcard2 : (insert b (insert a (∅ : Finset String))).card = 2 := by
    rw [Finset.card_insert_of_not_mem hm2, hcard1]
  have hcard3 : (insert c (insert b (insert a (∅ : Finset String)))).card = 3 := by
    rw [Finset.card_insert_of_not_mem hm3, hcard2]
  -- active flags
  have ha1 : q1.1.curiosityActive = false := by
    rw [Bool.eq_false_iff]
    intro htr
    rcases c1.2.1.mp htr with h' | h'
    · exact Bool.false_ne_true h'
    · rw [show insert a (initSM t0).interactionTypes = insert a ∅ from rfl, hcard1] at h'
      omega
  have ha2 : q2.1.curiosityActive = false := by
    rw [← hq2] at c2
    rw [Bool.eq_false_iff]
    intro htr
    rcases c2.2.1.mp htr with h' | h'
    · exact Bool.false_ne_true (ha1 ▸ h')
    · rw [ht1, hcard2] at h'
      omega
  have ha3 : q3.1.curiosityActive = true := by
    rw [← hq3] at c3
    refine c3.2.1.mpr (Or.inr ?_)
    rw [ht2, hcard3]
  have ha4 : q4.1.curiosityActive = true := by
    rw [← hq4] at c4
    exact c4.2.1.mpr (Or.inl ha3)
  -- end times
  have he3 : q3.1.curiosityEndTime = n3 + curiosityDuration := by
    rw [← hq3] at c3
    rw [c3.2.2.1, if_pos]
    constructor
    · rw [ht2, hcard3]
    · exact ha2
  have he4 : q4.1.curiosityEndTime = n3 + curiosityDuration := by
    rw [← hq4] at c4
    rw [c4.2.2.1, if_neg, he3]
    rintro ⟨-, hfalse⟩
    rw [ha3] at hfalse
    simp at hfalse
  -- event traces
  have hf1 : q1.2.filter isCuriosityStartEvent = [] := by
    rw [c1.2.2.2.2.1, if_neg]
    rintro ⟨hge, -⟩
    rw [show insert a (initSM t0).interactionTypes = insert a ∅ from rfl, hcard1] at hge
    omega
  have hf2 : q2.2.filter isCuriosityStartEvent = [] := by
    rw [← hq2] at c2
    rw [c2.2.2.2.2.1, if_neg]
    rintro ⟨hge, -⟩
    rw [ht1, hcard2] at hge
    omega
  have hf3 : q3.2.filter isCuriosityStartEvent = [SMEvent.curiosityStart x y] := by
    rw [← hq3] at c3
    rw [c3.2.2.2.2.1, if_pos]
    constructor
    · rw [ht2, hcard3]
    · exact ha2
  have hf4 : q4.2.filter isCuriosityStartEvent = [] := by
    rw [← hq4] at c4
    rw [c4.2.2.2.2.1, if_neg]
    rintro ⟨-, hfalse⟩
    rw [ha3] at hfalse
    simp at hfalse
  have hcond5 : q4.1.curiosityActive = true ∧ q4.1.curiosityEndTime ≤ n5 := by
    refine ⟨ha4, ?_⟩
    rw [he4]
    exact h5
  have hf5 : q5.2.filter isCuriosityStartEvent = [] := by
    rw [← hq5] at c5
    exact c5.2.2.1
  refine ⟨?_, ?_, ?_, ?_⟩
  · simp only [List.filter_append, hf1, hf2, hf3, hf4, hf5]
    rfl
  · simp only [List.mem_append]
    refine Or.inr ?_
    rw [← hq5] at c5
    exact c5.2.2.2.mpr hcond5
  · rw [← hq5] at c5
    rw [Bool.eq_false_iff]
    intro htr
    exact (c5.1.mp htr).2 hcond5.2
  · rw [← hq5] at c5
    rw [c5.2.1, if_pos hcond5]

/-- Witness for C7 at concrete inputs: types `"hover"`, `"petalClick"`,
`"centerClick"`, `"dwell"` recorded at 0, 1, 2, 3 ms and an update at
6000 ms. -/
theorem curiosity_three_types_activate_once_witness :
    (curiosityScenario 0 5 7 0 1 2 3 6000 "hover" "petalClick" "centerClick" "dwell").2.filter
        isCuriosityStartEvent = [SMEvent.curiosityStart 5 7] ∧
      (curiosityScenario 0 5 7 0 1 2 3 6000
          "hover" "petalClick" "centerClick" "dwell").1.interactionTypes = ∅ := by
  have h := curiosity_three_types_activate_once 0 5 7 0 1 2 3 6000
    "hover" "petalClick" "centerClick" "dwell"
    (by decide) (by decide) (by decide) (by decide) (by decide) (by decide)
    (by norm_num [curiosityDuration])
  exact ⟨h.1, h.2.2.2⟩

/-! ## PetalManager.triggerRipple

`triggerRipple(sourceIndex)` walks the two directions `[-1, 1]` with
base delays `[rippleDelay, rippleDelay * 2]`; each direction schedules the
immediate neighbour at its base delay and, from inside that timer, the
second-ring neighbour `rippleDelay` later.  `rippleSchedule k` collects
the `(absolute delay, petal index)` pairs so scheduled. -/

def rippleDirections : List (ℤ × ℕ) := [(-1, 0), (1, 1)]

def rippleDelays : List ℕ := [rippleDelay, rippleDelay * 2]

def rippleSchedule (k : ℤ) : List (ℕ × ℤ) :=
  rippleDirections.flatMap fun di =>
    let d := rippleDelays.getD di.2 0
    let neighborIndex := (k + di.1 + (petalCount : ℤ)) % (petalCount : ℤ)
    let neighbor2Index := (neighborIndex + di.1 + (petalCount : ℤ)) % (petalCount : ℤ)
    [(d, neighborIndex), (d + rippleDelay, neighbor2Index)]

/-- The delay `triggerRipple k` schedules for petal `j`, if any. -/
def rippleDelayOf (k j : ℤ) : Option ℕ :=
  ((rippleSchedule k).find? fun e => e.2 == j).map (·.1)

/-- C2 counterexample to the claim as stated: clicking petal 0 schedules
the immediate neighbour `(0+1) % 36 = 1` at delay `2 * rippleDelay`,
exactly the same delay as the second-ring neighbour `(0-2) % 36 = 34`
— so the immediate neighbours are not all activated strictly before the
second-ring neighbours. -/
theorem ripple_immediate_not_before_second_ring :
    rippleDelayOf 0 ((0 + 1) % 36) = some (rippleDelay * 2) ∧
    rippleDelayOf 0 ((0 - 2 + 36) % 36) = some (rippleDelay * 2) ∧
    rippleDelayOf 0 ((0 + 1) % 36) = rippleDelayOf 0 ((0 - 2 + 36) % 36) := by
  decide

/-- C2 (amended): clicking petal `k` schedules ripples with delays
`rippleDelay` for `(k-1) % 36`, `2 * rippleDelay` for `(k+1) % 36` and for
the second-ring neighbour `(k-2) % 36`, and `3 * rippleDelay` for
`(k+2) % 36`; on each side the immediate neighbour strictly precedes its
own second-ring neighbour, but across sides `(k+1)` shares its delay slot
with `(k-2)`. -/
theorem ripple_schedule_delays (k : ℤ) (h0 : 0 ≤ k) (h36 : k < 36) :
    rippleDelayOf k ((k - 1 + 36) % 36) = some rippleDelay ∧
    rippleDelayOf k ((k - 2 + 36) % 36) = some (rippleDelay * 2) ∧
    rippleDelayOf k ((k + 1) % 36) = some (rippleDelay * 2) ∧
    rippleDelayOf k ((k + 2) % 36) = some (rippleDelay * 3) ∧
    rippleDelay < rippleDelay * 2 ∧ rippleDelay * 2 < rippleDelay * 3 := by
  interval_cases k <;> decide

/-- Witness for C2 at petal 7: delays 40, 80, 80, 120 for petals 6, 5, 8, 9. -/
theorem ripple_schedule_delays_witness :
    0 ≤ (7 : ℤ) ∧ rippleDelayOf 7 6 = some 40 ∧ rippleDelayOf 7 5 = some 80 ∧
      rippleDelayOf 7 8 = some 80 ∧ rippleDelayOf 7 9 = some 120 := by
  have h := ripple_schedule_delays 7 (by decide) (by decide)
  exact ⟨by decide, h.1, h.2.1, h.2.2.1, h.2.2.2.1⟩

/-! ## PetalManager.handleHover

Hover bookkeeping from `PetalModule.js`: the manager remembers
`hoveredPetal` and, when the petal under the cursor changes, calls
`setHovered(false)` on the old petal before `setHovered(true)` on the new
one.  The hit-test result is the explicit `hit` argument; per-petal state
is projected to the `isHovered` flag; the emitted `(index, flag)` list
records the `setHovered` calls in call order. -/

structure PMHover where
  petalHovered : Fin petalCount → Bool
  hoveredPetal : Option (Fin petalCount)

def pmHoverInit : PMHover := ⟨fun _ => false, none⟩

def handleHover (hit : Option (Fin petalCount)) (m : PMHover) :
    PMHover × List (Fin petalCount × Bool) :=
  if m.hoveredPetal = hit then (m, [])
  else
    let evOld := match m.hoveredPetal with
      | some o => [(o, false)]
      | none => []
    let m1 := match m.hoveredPetal with
      | some o => { m with petalHovered := Function.update m.petalHovered o false }
      | none => m
    let evNew := match hit with
      | some p => [(p, true)]
      | none => []
    let m2 := match hit with
      | some p => { m1 with petalHovered := Function.update m1.petalHovered p true }
      | none => m1
    ({ m2 with hoveredPetal := hit }, evOld ++ evNew)

def runHover (hits : List (Option (Fin petalCount))) : PMHover :=
  hits.foldl (fun m h => (handleHover h m).1) pmHoverInit

/-- A petal's flag is set exactly when it is the remembered hovered petal. -/
def hoverInv (m : PMHover) : Prop :=
  ∀ j, m.petalHovered j = true ↔ m.hoveredPetal = some j

lemma handleHover_inv (m : PMHover) (hit : Option (Fin petalCount))
    (hm : hoverInv m) : hoverInv (handleHover hit m).1 := by
  intro j
  unfold handleHover
  by_cases he : m.hoveredPetal = hit
  · rw [if_pos he]
    exact (hm j).trans (by rw [he])
  · rw [if_neg he]
    rcases ho : m.hoveredPetal with _ | o <;> rcases hh : hit with _ | p <;>
      simp only [ho]
    · exact absurd (ho.trans hh.symm) he
    · by_cases hjp : j = p
      · subst hjp
        simp [Function.update_same]
      · rw [Function.update_noteq hjp, hm j, ho]
        simp [Ne.symm hjp]
    · by_cases hjo : j = o
      · subst hjo
        simp [Function.update_same]
      · rw [Function.update_noteq hjo, hm j, ho]
        simp [Ne.symm hjo]
    · have hop : o ≠ p := fun hE => he (by rw [ho, hh, hE])
      by_cases hjp : j = p
      · subst hjp
        simp [Function.update_same]
      · rw [Function.update_noteq hjp]
        by_cases hjo : j = o
        · subst hjo
          rw [Function.update_same]
          simp [Ne.symm hjp]
        · rw [Function.update_noteq hjo, hm j, ho]
          simp [Ne.symm hjp, Ne.symm hjo]

/-- C10: after any sequence of `handleHover` calls (each given its
hit-test result), (1) at most one petal is hovered — a petal's
`isHovered` flag is set exactly when it is the manager's `hoveredPetal`;
(2) after every call `hoveredPetal` equals that call's hit-test result;
(3) when the hovered petal changes, the old petal receives
`setHovered(false)` before the new one receives `setHovered(true)`. -/
theorem handle_hover_at_most_one :
    (∀ hits : List (Option (Fin petalCount)), hoverInv (runHover hits)) ∧
    (∀ (m : PMHover) (hit : Option (Fin petalCount)),
      (handleHover hit m).1.hoveredPetal = hit) ∧
    (∀ (m : PMHover) (o p : Fin petalCount), m.hoveredPetal = some o →
      m.hoveredPetal ≠ some p →
      (handleHover (some p) m).2 = [(o, false), (p, true)]) := by
  refine ⟨?_, ?_, ?_⟩
  · intro hits
    have : ∀ (hs : List (Option (Fin petalCount))) (m : PMHover), hoverInv m →
        hoverInv (hs.foldl (fun m h => (handleHover h m).1) m) := by
      intro hs
      induction hs with
      | nil => intro m hm; exact hm
      | cons h hs ih =>
          intro m hm
          exact ih _ (handleHover_inv m h hm)
    exact this hits pmHoverInit (by intro j; simp [pmHoverInit])
  · intro m hit
    unfold handleHover
    by_cases he : m.hoveredPetal = hit
    · rw [if_pos he]
      exact he
    · rw [if_neg he]
  · intro m o p ho hne
    unfold handleHover
    rw [if_neg hne]
    simp only [ho]
    rfl

/-- Witness for C10: hovering petal 3 then petal 5 leaves exactly petal 5
hovered, and the transition emits `setHovered(false)` on 3 before
`setHovered(true)` on 5. -/
theorem handle_hover_at_most_one_witness :
    hoverInv (runHover [some ⟨3, by norm_num [petalCount]⟩, some ⟨5, by norm_num [petalCount]⟩]) ∧
    (handleHover (some ⟨5, by norm_num [petalCount]⟩)
        (runHover [some ⟨3, by norm_num [petalCount]⟩])).2 =
      [(⟨3, by norm_num [petalCount]⟩, false), (⟨5, by norm_num [petalCount]⟩, true)] := by
  have h := handle_hover_at_most_one
  refine ⟨h.1 [some ⟨3, by norm_num [petalCount]⟩, some ⟨5, by norm_num [petalCount]⟩], ?_⟩
  exact h.2.2 (runHover [some ⟨3, by norm_num [petalCount]⟩])
    ⟨3, by norm_num [petalCount]⟩ ⟨5, by norm_num [petalCount]⟩ (by decide) (by decide)

/-! ## Real-valued geometry and physics

The remaining subsystems do trigonometry and square roots, so they are
modelled over `ℝ`.  `Math.hypot`, `Math.atan2` (range `(-π, π]`, matching
`Complex.arg`), `Utils.normalize` and `Utils.lerp` come from `config.js`. -/

noncomputable section

def lerp (a b t : ℝ) : ℝ := a + (b - a) * t

def hypot (x y : ℝ) : ℝ := Real.sqrt (x ^ 2 + y ^ 2)

/-- `Utils.normalize`: `Math.hypot(x, y) || 1` substitutes 1 for a zero length. -/
def normalize (x y : ℝ) : ℝ × ℝ :=
  let len0 := hypot x y
  let len := if len0 = 0 then 1 else len0
  (x / len, y / len)

def atan2 (y x : ℝ) : ℝ := Complex.arg ⟨x, y⟩

def degToRad (deg : ℝ) : ℝ := deg * (Real.pi / 180)

/-- `Utils.randomRange(min, max)` with the `Math.random()` draw `r` explicit. -/
def randomRange (lo hi r : ℝ) : ℝ := r * (hi - lo) + lo

def windGustStrength : ℝ := 0.8
def petalTiltMax : ℝ := 4
def petalSpinAngle : ℝ := 10
def centerPulseSpeed : ℝ := 0.8
def centerPulseAmount : ℝ := 0.02
def centerBloomScale : ℝ := 1.03
def shimmerDuration : ℝ := 300

lemma hypot_nonneg (x y : ℝ) : 0 ≤ hypot x y := Real.sqrt_nonneg _

lemma hypot_scale (a b s : ℝ) (hs : 0 ≤ s) : hypot (a * s) (b * s) = s * hypot a b := by
  unfold hypot
  rw [show (a * s) ^ 2 + (b * s) ^ 2 = s ^ 2 * (a ^ 2 + b ^ 2) by ring,
    Real.sqrt_mul (sq_nonneg s), Real.sqrt_sq hs]

lemma hypot_normalize (x y : ℝ) (h : ¬(x = 0 ∧ y = 0)) :
    hypot (normalize x y).1 (normalize x y).2 = 1 := by
  have hpos : 0 < x ^ 2 + y ^ 2 := by
    rcases not_and_or.mp h with h' | h'
    · have hx := (sq_nonneg x).lt_of_ne (Ne.symm (pow_ne_zero 2 h'))
      nlinarith [sq_nonneg y]
    · have hy := (sq_nonneg y).lt_of_ne (Ne.symm (pow_ne_zero 2 h'))
      nlinarith [sq_nonneg x]
  have hlen : 0 < hypot x y := Real.sqrt_pos.mpr hpos
  have hne : hypot x y ≠ 0 := ne_of_gt hlen
  have hnorm : normalize x y = (x / hypot x y, y / hypot x y) := by
    unfold normalize
    simp [hne]
  rw [hnorm]
  unfold hypot
  rw [div_pow, div_pow, div_add_div_same, Real.sq_sqrt (le_of_lt hpos),
    div_self (ne_of_gt hpos), Real.sqrt_one]

/-! ## WindField gust subsystem (`BeeSystem.js`)

The gust branch of `WindField.update` and `triggerGust`.  The envelope
expression inside `update` is the named `gustEnvelope`. -/

structure Gust where
  active : Bool
  progress : ℝ
  duration : ℝ
  direction : ℝ × ℝ
  wind : ℝ × ℝ

def gustInit : Gust :=
  { active := false, progress := 0, duration := 2000, direction := (1, 0), wind := (0, 0) }

def triggerGust (direction : ℝ × ℝ) (duration : ℝ) (g : Gust) : Gust :=
  { g with active := true, progress := 0, duration := duration
           direction := normalize direction.1 direction.2 }

/-- Gust envelope: quick linear rise over the first 20% of the duration,
linear fall over the remaining 80%. -/
def gustEnvelope (p : ℝ) : ℝ :=
  if p < 0.2 then p / 0.2 else 1 - (p - 0.2) / 0.8

/-- The gust branch of `WindField.update(deltaTime, ...)`. -/
def gustStep (deltaTime : ℝ) (g : Gust) : Gust :=
  if g.active = true then
    let progress := g.progress + deltaTime / g.duration
    if 1 ≤ progress then
      { g with active := false, progress := 0, wind := (0, 0) }
    else
      let strength := gustEnvelope progress * windGustStrength
      { g with progress := progress
               wind := (g.direction.1 * strength, g.direction.2 * strength * 0.3) }
  else g

def gustMagnitude (g : Gust) : ℝ := hypot g.wind.1 g.wind.2

lemma gustEnvelope_nonneg (p : ℝ) (h0 : 0 ≤ p) (h1 : p ≤ 1) : 0 ≤ gustEnvelope p := by
  unfold gustEnvelope
  split_ifs with h
  · positivity
  · push_neg at h
    have : (p - 0.2) / 0.8 ≤ 1 := by
      rw [div_le_one (by norm_num)]
      linarith
    linarith

/-- C3: the gust envelope rises linearly from 0 to the peak 1 over the
first 20% of the duration and falls linearly back to 0 over the remaining
80%; at progress 0.1 and at progress 0.6 it is exactly half the peak;
`triggerGust` normalizes the direction (unit length for any nonzero input);
an `update` that keeps progress in `(0, 1)` sets the gust wind to
`direction * envelope * windGustStrength` (with the y component further
scaled by 0.3), so the sampled magnitude is the envelope times the peak
magnitude; and an `update` that brings progress to 1 or beyond clears
`gustActive` and zeroes the gust wind. -/
theorem gust_envelope_piecewise_linear :
    (∀ p : ℝ, p < 0.2 → gustEnvelope p = p / 0.2) ∧
    (∀ p : ℝ, 0.2 ≤ p → gustEnvelope p = 1 - (p - 0.2) / 0.8) ∧
    (gustEnvelope 0 = 0 ∧ gustEnvelope 0.1 = (1 / 2) * gustEnvelope 0.2 ∧
      gustEnvelope 0.6 = (1 / 2) * gustEnvelope 0.2 ∧ gustEnvelope 0.2 = 1 ∧
      gustEnvelope 1 = 0) ∧
    (∀ p : ℝ, 0 ≤ p → p ≤ 1 → gustEnvelope p ≤ 1) ∧
    (∀ (g : Gust) (dir : ℝ × ℝ) (dur : ℝ), ¬(dir.1 = 0 ∧ dir.2 = 0) →
      hypot (triggerGust dir dur g).direction.1 (triggerGust dir dur g).direction.2 = 1) ∧
    (∀ (g : Gust) (dt : ℝ), g.active = true →
      (let p := g.progress + dt / g.duration
       (0 ≤ p → p < 1 →
         (gustStep dt g).wind =
           (g.direction.1 * (gustEnvelope p * windGustStrength),
            g.direction.2 * (gustEnvelope p * windGustStrength) * 0.3) ∧
         gustMagnitude (gustStep dt g) =
           gustEnvelope p * windGustStrength * hypot g.direction.1 (g.direction.2 * 0.3)) ∧
       (1 ≤ p → (gustStep dt g).active = false ∧ (gustStep dt g).wind = (0, 0)))) := by
  refine ⟨?_, ?_, ?_, ?_, ?_, ?_⟩
  · intro p hp
    unfold gustEnvelope
    rw [if_pos hp]
  · intro p hp
    unfold gustEnvelope
    rw [if_neg (not_lt.mpr hp)]
  · refine ⟨?_, ?_, ?_, ?_, ?_⟩ <;> norm_num [gustEnvelope]
  · intro p h0 h1
    unfold gustEnvelope
    split_ifs with h
    · rw [div_le_one (by norm_num)]
      linarith
    · push_neg at h
      have : 0 ≤ (p - 0.2) / 0.8 := div_nonneg (by linarith) (by norm_num)
      linarith
  · intro g dir dur h
    exact hypot_normalize dir.1 dir.2 h
  · intro g dt hact
    refine ⟨?_, ?_⟩
    · intro h0 h1
      have hwind : (gustStep dt g).wind =
          (g.direction.1 * (gustEnvelope (g.progress + dt / g.duration) * windGustStrength),
           g.direction.2 * (gustEnvelope (g.progress + dt / g.duration) * windGustStrength)
             * 0.3) := by
        unfold gustStep
        rw [if_pos hact, if_neg (not_le.mpr h1)]
      refine ⟨hwind, ?_⟩
      unfold gustMagnitude
      rw [hwind]
      have hs : 0 ≤ gustEnvelope (g.progress + dt / g.duration) * windGustStrength :=
        mul_nonneg (gustEnvelope_nonneg _ h0 (le_of_lt h1))
          (by norm_num [windGustStrength])
      calc hypot
            (g.direction.1 * (gustEnvelope (g.progress + dt / g.duration) * windGustStrength))
            (g.direction.2 * (gustEnvelope (g.progress + dt / g.duration) * windGustStrength)
              * 0.3)
          = hypot
            (g.direction.1 * (gustEnvelope (g.progress + dt / g.duration) * windGustStrength))
            ((g.direction.2 * 0.3) *
              (gustEnvelope (g.progress + dt / g.duration) * windGustStrength)) := by
            ring_nf
        _ = (gustEnvelope (g.progress + dt / g.duration) * windGustStrength) *
              hypot g.direction.1 (g.direction.2 * 0.3) := hypot_scale _ _ _ hs
    · intro h1
      constructor <;>
        · unfold gustStep
          rw [if_pos hact, if_pos h1]

/-- Witness for C3: `triggerGust((1,0), 2000)` then `update(200)` gives
progress 0.1 and gust wind `(0.4, 0)`, half of the peak magnitude 0.8. -/
theorem gust_envelope_piecewise_linear_witness :
    (gustStep 200 (triggerGust (1, 0) 2000 gustInit)).wind.1 = 0.4 ∧
    gustMagnitude (gustStep 200 (triggerGust (1, 0) 2000 gustInit)) = 0.4 := by
  have h := gust_envelope_piecewise_linear
  have hact : (triggerGust (1, 0) 2000 gustInit).active = true := rfl
  have hp : (triggerGust (1, 0) 2000 gustInit).progress
      + 200 / (triggerGust (1, 0) 2000 gustInit).duration = 0.1 := by
    norm_num [triggerGust, gustInit]
  have h6 := (h.2.2.2.2.2 (triggerGust (1, 0) 2000 gustInit) 200 hact).1
  rw [hp] at h6
  have hdir : (triggerGust (1, 0) 2000 gustInit).direction = (1, 0) := by
    norm_num [triggerGust, gustInit, normalize, hypot, Real.sqrt_one]
  have henv : gustEnvelope 0.1 = 0.5 := by norm_num [gustEnvelope]
  obtain ⟨hw, hm⟩ := h6 (by norm_num) (by norm_num)
  constructor
  · rw [hw, hdir, henv]
    norm_num [windGustStrength]
  · rw [hm, hdir, henv]
    norm_num [windGustStrength, hypot, Real.sqrt_one]

/-! ## Petal (`PetalModule.js`)

One petal with its spring-damper state.  The constructor's `Math.random()`
draws are the explicit `PetalRandom` record (each field in `[0,1]`);
`performance.now() * 0.001` inside `update` is the explicit `time`
argument.  `setTimeout`-deferred resets (`targetScale` back to 1) are
separate deferred events and not part of these state transitions. -/

structure PetalRandom where
  rHue : ℝ
  rLen : ℝ
  rWid : ℝ
  rPhase : ℝ
  rFreq : ℝ
  rTiltStiff : ℝ
  rBendStiff : ℝ

structure Petal where
  index : ℕ
  totalPetals : ℕ
  baseAngle : ℝ
  angle : ℝ
  hueOffset : ℝ
  lengthVariation : ℝ
  widthVariation : ℝ
  phase : ℝ
  naturalFreq : ℝ
  length : ℝ
  width : ℝ
  tiltAngle : ℝ
  tiltVelocity : ℝ
  targetTilt : ℝ
  tiltStiffness : ℝ
  tiltDamping : ℝ
  spinAngle : ℝ
  spinVelocity : ℝ
  spinDamping : ℝ
  bendAngle : ℝ
  bendVelocity : ℝ
  bendStiffness : ℝ
  scale : ℝ
  scaleVelocity : ℝ
  targetScale : ℝ
  isHovered : Bool
  glowIntensity : ℝ
  hueShift : ℝ
  vibrationPhase : ℝ
  bloomProgress : ℝ
  visible : Bool
  rippleActive : Bool
  rippleProgress : ℝ
  rippleIntensity : ℝ

def mkPetal (index totalPetals : ℕ) (centerX centerY baseRadius : ℝ)
    (rnd : PetalRandom) : Petal :=
  let baseAngle := ((index : ℝ) / (totalPetals : ℝ)) * Real.pi * 2
  { index := index
    totalPetals := totalPetals
    baseAngle := baseAngle
    angle := baseAngle
    hueOffset := randomRange (-8) 8 rnd.rHue
    lengthVariation := randomRange 0.88 1.12 rnd.rLen
    widthVariation := randomRange 0.9 1.1 rnd.rWid
    phase := randomRange 0 (Real.pi * 2) rnd.rPhase
    naturalFreq := randomRange 2.5 4.5 rnd.rFreq
    length := baseRadius * 0.8 * randomRange 0.88 1.12 rnd.rLen
    width := baseRadius * 0.15 * randomRange 0.9 1.1 rnd.rWid
    tiltAngle := 0, tiltVelocity := 0, targetTilt := 0
    tiltStiffness := 0.15 * randomRange 0.8 1.2 rnd.rTiltStiff
    tiltDamping := 0.12
    spinAngle := 0, spinVelocity := 0
    spinDamping := 0.92
    bendAngle := 0, bendVelocity := 0
    bendStiffness := randomRange 0.08 0.15 rnd.rBendStiff
    scale := 1, scaleVelocity := 0, targetScale := 1
    isHovered := false, glowIntensity := 0, hueShift := 0, vibrationPhase := 0
    bloomProgress := 0, visible := false
    rippleActive := false, rippleProgress := 0, rippleIntensity := 0 }

/-- The angle petals are drawn at and hit-tested against
(`this.angle + this.spinAngle` in `getTipPosition`, `containsPoint`, `draw`). -/
def displayAngle (p : Petal) : ℝ := p.angle + p.spinAngle

/-- The natural micro-sway term added into `this.angle` each update. -/
def naturalSway (p : Petal) (time : ℝ) : ℝ :=
  Real.sin (time * p.naturalFreq * 0.3 + p.phase) * 0.008

def getTipPosition (p : Petal) (centerX centerY : ℝ) : ℝ × ℝ :=
  (centerX + Real.cos (displayAngle p) * p.length * p.scale * p.bloomProgress,
   centerY + Real.sin (displayAngle p) * p.length * p.scale * p.bloomProgress)

/-- `Petal.containsPoint(px, py, centerX, centerY)` as a proposition
(`true` = the early `return false` guards do not fire and the final
angular test passes). -/
def containsPoint (p : Petal) (px py centerX centerY : ℝ) : Prop :=
  p.visible = true ∧ ¬p.bloomProgress < 0.5 ∧
  (let petalLength := p.length * p.scale * p.bloomProgress
   let dx := px - centerX
   let dy := py - centerY
   let distance := hypot dx dy
   ¬(distance > petalLength ∨ distance < p.length * 0.1) ∧
   (let pointAngle := atan2 dy dx
    let angleDiff0 := |pointAngle - displayAngle p|
    let angleDiff := if angleDiff0 > Real.pi then Real.pi * 2 - angleDiff0 else angleDiff0
    let widthAtPoint := p.width * (1 - distance / petalLength * 0.5) / distance
    angleDiff < widthAtPoint))

def setHovered (hovered : Bool) (rTilt : ℝ) (p : Petal) : Petal :=
  if hovered = true then
    { p with isHovered := true
             targetTilt := degToRad (randomRange 2 petalTiltMax rTilt)
             hueShift := 2 }
  else
    { p with isHovered := false, targetTilt := 0, hueShift := 0 }

def triggerClick (r : ℝ) (p : Petal) : Petal :=
  let spinDirection : ℝ := if r > 0.5 then 1 else -1
  { p with spinVelocity := degToRad petalSpinAngle * spinDirection
           targetScale := 1.05 }

def triggerRipple (r : ℝ) (p : Petal) : Petal :=
  { p with rippleActive := true
           rippleProgress := 0
           spinVelocity := degToRad 3 * (if r > 0.5 then 1 else -1) }

def triggerBloom (p : Petal) : Petal :=
  { p with targetScale := centerBloomScale }

/-- `Petal.update(deltaTime, wind)` with the wall clock explicit. -/
def petalUpdate (p : Petal) (deltaTime : ℝ) (wind : ℝ × ℝ) (time : ℝ) : Petal :=
  if p.visible = false then p else
  let dt := deltaTime * 0.001
  -- bloom animation with elastic overshoot near the end
  let bloomProgress :=
    if p.bloomProgress < 1 then min 1 (p.bloomProgress + dt * 0.8) else p.bloomProgress
  let scale :=
    if p.bloomProgress < 1 ∧ 0.85 ≤ bloomProgress then
      let t := (bloomProgress - 0.85) / 0.15
      1 + Real.sin (t * Real.pi * 2.5) * Real.exp (-t * 3) * 0.08
    else p.scale
  -- wind force on bend angle, spring + damping
  let windForce := wind.1 * 0.08 + wind.2 * 0.02
  let targetBend := windForce * (1 + Real.sin (time * p.naturalFreq + p.phase) * 0.3)
  let bendSpring := (targetBend - p.bendAngle) * p.bendStiffness
  let bendDamp := -p.bendVelocity * p.tiltDamping
  let bendVelocity := p.bendVelocity + (bendSpring + bendDamp) * dt * 60
  let bendAngle := p.bendAngle + bendVelocity * dt * 60
  let angle := p.baseAngle + bendAngle + naturalSway p time
  -- tilt spring, with hover vibration
  let tiltSpring := (p.targetTilt - p.tiltAngle) * p.tiltStiffness
  let tiltDamp := -p.tiltVelocity * p.tiltDamping
  let tiltVelocity := p.tiltVelocity + (tiltSpring + tiltDamp) * dt * 60
  let tiltAngle := p.tiltAngle + tiltVelocity * dt * 60
  let vibrationPhase :=
    if p.isHovered = true then p.vibrationPhase + dt * 25 else p.vibrationPhase
  let tiltAngle :=
    if p.isHovered = true then tiltAngle + Real.sin vibrationPhase * 0.005 else tiltAngle
  -- spin with exponential damping and weak centering spring
  let spinAngle := p.spinAngle + p.spinVelocity * dt * 60
  let spinVelocity := p.spinVelocity * Real.rpow p.spinDamping (dt * 60)
  let spinVelocity := spinVelocity + -spinAngle * 0.05 * dt * 60
  -- scale spring
  let scaleDiff := p.targetScale - scale
  let scaleVelocity := (p.scaleVelocity + scaleDiff * 0.15 * dt * 60) * 0.85
  let scale := scale + scaleVelocity * dt * 60
  -- glow easing
  let targetGlow : ℝ := if p.isHovered = true then 0.7 else 0
  let glowIntensity := p.glowIntensity + (targetGlow - p.glowIntensity) * 0.08
  -- ripple envelope and end-of-ripple reset
  let rippleProgress :=
    if p.rippleActive = true then p.rippleProgress + dt * 4 else p.rippleProgress
  let rippleIntensity :=
    if p.rippleActive = true then Real.sin (rippleProgress * Real.pi) * (1 - rippleProgress)
    else p.rippleIntensity
  let rippleEnds := p.rippleActive = true ∧ 1 ≤ rippleProgress
  { p with bloomProgress := bloomProgress
           bendVelocity := bendVelocity
           bendAngle := bendAngle
           angle := angle
           tiltVelocity := tiltVelocity
           tiltAngle := tiltAngle
           vibrationPhase := vibrationPhase
           spinAngle := spinAngle
           spinVelocity := spinVelocity
           scaleVelocity := scaleVelocity
           scale := scale
           glowIntensity := glowIntensity
           rippleActive := if rippleEnds then false else p.rippleActive
           rippleProgress := if rippleEnds then 0 else rippleProgress
           rippleIntensity := if rippleEnds then 0 else rippleIntensity }

/-- `PetalManager.setCuriositySide(angle)` restricted to one petal. -/
def setCuriositySideStiffness (a : ℝ) (p : Petal) : Petal :=
  let angleDiff0 := |p.baseAngle - a|
  let angleDiff := if angleDiff0 > Real.pi then Real.pi * 2 - angleDiff0 else angleDiff0
  { p with bendStiffness := if angleDiff < Real.pi / 2 then 1.5 else 1 }

/-- `PetalManager.resetCuriosity()` restricted to one petal, with the fresh
`Math.random()` draw `r` explicit. -/
def resetCuriosityStiffness (r : ℝ) (p : Petal) : Petal :=
  { p with bendStiffness := randomRange 0.8 1.2 r }

/-- A neutral draw record: every variation factor at the middle of its
range (so `lengthVariation = widthVariation = 1`), `phase = 0`,
`naturalFreq = 2.5`. -/
def defaultRandom : PetalRandom :=
  { rHue := 1/2, rLen := 1/2, rWid := 1/2, rPhase := 0, rFreq := 0
    rTiltStiff := 1/2, rBendStiff := 1/2 }

def defaultPetal (i : ℕ) : Petal := mkPetal i 36 0 0 100 defaultRandom

/-- C5 counterexample to the claim as stated: for the neutral petal 0 made
visible, one `update(16ms)` under zero wind at clock time `2π/3` seconds
yields `displayAngle = 0.008` while
`baseAngle + bendAngle + spinAngle = 0` — the display angle contains the
additive natural micro-sway term `0.008 * sin(time * naturalFreq * 0.3 + phase)`
on top of `baseAngle + bendAngle + spin`. -/
theorem display_angle_has_extra_sway_term :
    displayAngle (petalUpdate { defaultPetal 0 with visible := true } 16 (0, 0)
        (2 * Real.pi / 3)) ≠
      (petalUpdate { defaultPetal 0 with visible := true } 16 (0, 0)
          (2 * Real.pi / 3)).baseAngle
        + (petalUpdate { defaultPetal 0 with visible := true } 16 (0, 0)
            (2 * Real.pi / 3)).bendAngle
        + (petalUpdate { defaultPetal 0 with visible := true } 16 (0, 0)
            (2 * Real.pi / 3)).spinAngle := by
  intro heq
  have hvis : ¬({ defaultPetal 0 with visible := true } : Petal).visible = false := by
    simp
  have hdec : displayAngle (petalUpdate { defaultPetal 0 with visible := true } 16 (0, 0)
        (2 * Real.pi / 3)) =
      (petalUpdate { defaultPetal 0 with visible := true } 16 (0, 0)
          (2 * Real.pi / 3)).baseAngle
        + (petalUpdate { defaultPetal 0 with visible := true } 16 (0, 0)
            (2 * Real.pi / 3)).bendAngle
        + naturalSway { defaultPetal 0 with visible := true } (2 * Real.pi / 3)
        + (petalUpdate { defaultPetal 0 with visible := true } 16 (0, 0)
            (2 * Real.pi / 3)).spinAngle := by
    unfold petalUpdate displayAngle
    rw [if_neg hvis]
  rw [hdec] at heq
  have hzero : naturalSway { defaultPetal 0 with visible := true } (2 * Real.pi / 3) = 0 := by
    linarith
  unfold naturalSway at hzero
  rw [show ({ defaultPetal 0 with visible := true } : Petal).naturalFreq = 2.5 from by
        norm_num [defaultPetal, mkPetal, randomRange, defaultRandom],
      show ({ defaultPetal 0 with visible := true } : Petal).phase = 0 from by
        norm_num [defaultPetal, mkPetal, randomRange, defaultRandom],
      show 2 * Real.pi / 3 * 2.5 * 0.3 + 0 = Real.pi / 2 from by ring,
      Real.sin_pi_div_two] at hzero
  norm_num at hzero

/-- C5 (amended): after every visible `update`, the display angle used for
drawing and hit-testing decomposes as
`displayAngle = baseAngle + bendAngle + naturalSway + spin`, where
`naturalSway = 0.008 * sin(time * naturalFreq * 0.3 + phase)` is the
natural micro-sway term; and the petal's geometry (`length`, `width`) is
fixed at construction from the randomized variation factors and preserved
by `update`, `setHovered`, `triggerClick`, `triggerRipple` and
`triggerBloom`. -/
theorem display_angle_decomposition :
    (∀ (p : Petal) (deltaTime : ℝ) (wind : ℝ × ℝ) (time : ℝ), p.visible = true →
      displayAngle (petalUpdate p deltaTime wind time) =
        (petalUpdate p deltaTime wind time).baseAngle
          + (petalUpdate p deltaTime wind time).bendAngle
          + naturalSway p time
          + (petalUpdate p deltaTime wind time).spinAngle) ∧
    (∀ (p : Petal) (deltaTime : ℝ) (wind : ℝ × ℝ) (time : ℝ),
      (petalUpdate p deltaTime wind time).length = p.length ∧
      (petalUpdate p deltaTime wind time).width = p.width ∧
      (petalUpdate p deltaTime wind time).baseAngle = p.baseAngle) ∧
    (∀ (i tp : ℕ) (cx cy br : ℝ) (rnd : PetalRandom),
      (mkPetal i tp cx cy br rnd).length = br * 0.8 * randomRange 0.88 1.12 rnd.rLen ∧
      (mkPetal i tp cx cy br rnd).width = br * 0.15 * randomRange 0.9 1.1 rnd.rWid) ∧
    (∀ (p : Petal) (h : Bool) (r : ℝ),
      (setHovered h r p).length = p.length ∧ (setHovered h r p).width = p.width) ∧
    (∀ (p : Petal) (r : ℝ),
      (triggerClick r p).length = p.length ∧ (triggerClick r p).width = p.width ∧
      (triggerRipple r p).length = p.length ∧ (triggerRipple r p).width = p.width ∧
      (triggerBloom p).length = p.length ∧ (triggerBloom p).width = p.width) := by
  refine ⟨?_, ?_, ?_, ?_, ?_⟩
  · intro p deltaTime wind time hv
    have hvis : ¬p.visible = false := by rw [hv]; simp
    unfold petalUpdate displayAngle
    rw [if_neg hvis]
  · intro p deltaTime wind time
    unfold petalUpdate
    split_ifs <;> exact ⟨rfl, rfl, rfl⟩
  · intro i tp cx cy br rnd
    exact ⟨rfl, rfl⟩
  · intro p h r
    unfold setHovered
    split_ifs <;> exact ⟨rfl, rfl⟩
  · intro p r
    exact ⟨rfl, rfl, rfl, rfl, rfl, rfl⟩

/-- Witness for C5 at a concrete petal: the decomposition instantiated at
the neutral petal 0 made visible, `update(16ms)`, zero wind, time 0. -/
theorem display_angle_decomposition_witness :
    displayAngle (petalUpdate { defaultPetal 0 with visible := true } 16 (0, 0) 0) =
      (petalUpdate { defaultPetal 0 with visible := true } 16 (0, 0) 0).baseAngle
        + (petalUpdate { defaultPetal 0 with visible := true } 16 (0, 0) 0).bendAngle
        + naturalSway { defaultPetal 0 with visible := true } 0
        + (petalUpdate { defaultPetal 0 with visible := true } 16 (0, 0) 0).spinAngle ∧
    (petalUpdate { defaultPetal 0 with visible := true } 16 (0, 0) 0).length =
      ({ defaultPetal 0 with visible := true } : Petal).length := by
  have h := display_angle_decomposition
  exact ⟨h.1 { defaultPetal 0 with visible := true } 16 (0, 0) 0 rfl,
    (h.2.1 { defaultPetal 0 with visible := true } 16 (0, 0) 0).1⟩

/-! ## Curiosity-side stiffness (C8) -/

/-- `β` lies within ±90° of `a` modulo full turns. -/
def withinQuarterTurn (β a : ℝ) : Prop :=
  ∃ k : ℤ, |β - a - 2 * Real.pi * k| < Real.pi / 2

/-- For a petal base angle `β ∈ [0, 2π)` and a cursor angle `a ∈ (-π, 2π)`
(the caller, `DaisyFlower.setCuriositySide`, passes `Math.atan2` output,
which lies in `(-π, π]`), the code's single-wrap angular difference is
below `π/2` exactly when the two angles are within ±90° of each other
modulo full turns OR the raw difference `β - a` exceeds a full turn `2π`:
in that overflow band (negative `a` against base angles near `2π`) the
wrap produces a negative value that passes the test regardless of the
true angular distance. -/
lemma wrapOnce_lt_iff (β a : ℝ) (hβ0 : 0 ≤ β) (hβ : β < 2 * Real.pi)
    (ha1 : -Real.pi < a) (ha : a < 2 * Real.pi) :
    ((if |β - a| > Real.pi then Real.pi * 2 - |β - a| else |β - a|) < Real.pi / 2)
      ↔ (withinQuarterTurn β a ∨ 2 * Real.pi < β - a) := by
  have hπ := Real.pi_pos
  set d := β - a with hd
  have hd1 : -(2 * Real.pi) < d := by rw [hd]; linarith
  have hd2 : d < 3 * Real.pi := by rw [hd]; linarith
  split_ifs with h
  · -- |d| > π : wrapped value is 2π - |d|
    rcases abs_cases d with ⟨hde, hdsgn⟩ | ⟨hde, hdsgn⟩
    · -- 0 ≤ d, so π < d < 3π
      rw [hde] at h ⊢
      rcases lt_or_le (2 * Real.pi) d with hgt | hle
      · -- d > 2π : the wrap is negative, so the test always passes
        constructor
        · intro _
          exact Or.inr hgt
        · intro _
          linarith
      · -- π < d ≤ 2π ; the matching translate is k = 1
        constructor
        · intro hlt
          refine Or.inl ⟨1, ?_⟩
          rw [Int.cast_one, mul_one, abs_of_nonpos (by linarith)]
          linarith
        · rintro (⟨k, hk⟩ | hgt)
          · have hk1 : k = 1 := by
              by_contra hkne
              rcases lt_or_le k 1 with hlt1 | hge1
              · have hk0 : (k : ℝ) ≤ 0 := by
                  have : k ≤ 0 := by omega
                  exact_mod_cast this
                have hge : d ≤ d - 2 * Real.pi * k := by nlinarith
                have := le_abs_self (d - 2 * Real.pi * k)
                linarith
              · have hk2 : (2 : ℝ) ≤ (k : ℝ) := by
                  have : (2 : ℤ) ≤ k := by omega
                  exact_mod_cast this
                have hge : 2 * Real.pi ≤ 2 * Real.pi * k - d := by nlinarith
                have := neg_abs_le (d - 2 * Real.pi * k)
                have habs : 2 * Real.pi * k - d ≤ |d - 2 * Real.pi * k| := by
                  rw [abs_sub_comm]
                  exact le_abs_self _
                linarith
            subst hk1
            rw [Int.cast_one, mul_one, abs_of_nonpos (by linarith)] at hk
            linarith
          · linarith
    · -- d < 0, so -2π < d < -π ; the matching translate is k = -1
      rw [hde] at h ⊢
      constructor
      · intro hlt
        refine Or.inl ⟨-1, ?_⟩
        rw [Int.cast_neg, Int.cast_one, mul_neg, mul_one, sub_neg_eq_add,
          abs_of_nonneg (by linarith)]
        linarith
      · rintro (⟨k, hk⟩ | hgt)
        · have hk1 : k = -1 := by
            by_contra hkne
            rcases lt_or_le k 0 with hlt0 | hge0
            · have hk2 : (k : ℝ) ≤ -2 := by
                have : k ≤ -2 := by omega
                exact_mod_cast this
              have hge : 2 * Real.pi ≤ d - 2 * Real.pi * k := by nlinarith
              have := le_abs_self (d - 2 * Real.pi * k)
              linarith
            · have hk0 : (0 : ℝ) ≤ (k : ℝ) := by exact_mod_cast hge0
              have hge : 2 * Real.pi * k - d ≥ -d := by nlinarith
              have habs : 2 * Real.pi * k - d ≤ |d - 2 * Real.pi * k| := by
                rw [abs_sub_comm]
                exact le_abs_self _
              linarith
          subst hk1
          rw [Int.cast_neg, Int.cast_one, mul_neg, mul_one, sub_neg_eq_add,
            abs_of_nonneg (by linarith)] at hk
          linarith
        · linarith
  · -- |d| ≤ π : the code keeps |d| , the matching translate is k = 0
    push_neg at h
    constructor
    · intro hlt
      refine Or.inl ⟨0, ?_⟩
      rw [Int.cast_zero, mul_zero, sub_zero]
      exact hlt
    · rintro (⟨k, hk⟩ | hgt)
      · have hk0 : k = 0 := by
          by_contra hkne
          have h1 : (1 : ℝ) ≤ |(k : ℝ)| := by
            have : (1 : ℤ) ≤ |k| := Int.one_le_abs (by omega)
            calc (1 : ℝ) = ((1 : ℤ) : ℝ) := by norm_num
              _ ≤ ((|k| : ℤ) : ℝ) := by exact_mod_cast this
              _ = |(k : ℝ)| := by push_cast; ring
          have habs2 : |2 * Real.pi * (k : ℝ)| = 2 * Real.pi * |(k : ℝ)| := by
            rw [abs_mul, abs_of_pos (by linarith)]
          have htri : |2 * Real.pi * (k : ℝ)| - |d| ≤ |d - 2 * Real.pi * k| := by
            have := abs_sub_abs_le_abs_sub (2 * Real.pi * (k : ℝ)) d
            rw [abs_sub_comm (2 * Real.pi * (k : ℝ)) d] at this
            linarith
          have : 2 * Real.pi ≤ 2 * Real.pi * |(k : ℝ)| := by nlinarith
          linarith
        subst hk0
        rw [Int.cast_zero, mul_zero, sub_zero] at hk
        exact hk
      · -- 2π < d contradicts |d| ≤ π
        have := le_abs_self d
        linarith

/-- C8 counterexample to the claim as stated: the neutral petal's
construction-time baseline `bendStiffness` is `0.115` (drawn from
`[0.08, 0.15]`), but `resetCuriosity()` draws a fresh value from
`[0.8, 1.2]` — with draw 0 it sets `0.8`, which is not the baseline. -/
theorem reset_curiosity_changes_baseline :
    (resetCuriosityStiffness 0 (defaultPetal 0)).bendStiffness = 0.8 ∧
    (defaultPetal 0).bendStiffness = 0.115 ∧
    (resetCuriosityStiffness 0 (defaultPetal 0)).bendStiffness ≠
      (defaultPetal 0).bendStiffness := by
  refine ⟨?_, ?_, ?_⟩ <;>
    norm_num [resetCuriosityStiffness, defaultPetal, mkPetal, randomRange, defaultRandom]

/-- C8 (amended): the caller (`DaisyFlower.setCuriositySide`) passes a
`Math.atan2` angle `a ∈ (-π, π]` while base angles lie in `[0, 2π)`; for
any `a ∈ (-π, 2π)`, `setCuriositySide(a)` sets `bendStiffness` to 1.5 on
exactly the petals whose base angle is within ±90° of `a` (modulo full
turns) OR whose raw difference `baseAngle - a` exceeds `2π` — in that
overflow case the single wrap yields a negative value that passes the
`< π/2` test, wrongly boosting petals more than 90° away (concretely, at
`a = -2` petal 35, about 105° from the cursor, is boosted to 1.5) — and
to 1 on all others; `resetCuriosity()` draws each petal's `bendStiffness`
fresh from `[0.8, 1.2]`, which never equals the construction-time
baseline drawn from `[0.08, 0.15]`. -/
theorem curiosity_side_boost_and_reset :
    (∀ (p : Petal) (a : ℝ), 0 ≤ p.baseAngle → p.baseAngle < 2 * Real.pi →
        -Real.pi < a → a < 2 * Real.pi →
        (((setCuriositySideStiffness a p).bendStiffness = 1.5 ↔
            (withinQuarterTurn p.baseAngle a ∨ 2 * Real.pi < p.baseAngle - a)) ∧
         (¬(withinQuarterTurn p.baseAngle a ∨ 2 * Real.pi < p.baseAngle - a) →
            (setCuriositySideStiffness a p).bendStiffness = 1))) ∧
    ((setCuriositySideStiffness (-2) (defaultPetal 35)).bendStiffness = 1.5 ∧
      ¬withinQuarterTurn (defaultPetal 35).baseAngle (-2)) ∧
    (∀ (p : Petal) (r : ℝ), 0 ≤ r → r ≤ 1 →
        0.8 ≤ (resetCuriosityStiffness r p).bendStiffness ∧
        (resetCuriosityStiffness r p).bendStiffness ≤ 1.2) ∧
    (∀ (i tp : ℕ) (cx cy br : ℝ) (rnd : PetalRandom), 0 ≤ rnd.rBendStiff →
        rnd.rBendStiff ≤ 1 →
        0.08 ≤ (mkPetal i tp cx cy br rnd).bendStiffness ∧
        (mkPetal i tp cx cy br rnd).bendStiffness ≤ 0.15) ∧
    (∀ (p : Petal) (r : ℝ) (i tp : ℕ) (cx cy br : ℝ) (rnd : PetalRandom),
        0 ≤ r → r ≤ 1 → 0 ≤ rnd.rBendStiff → rnd.rBendStiff ≤ 1 →
        (resetCuriosityStiffness r p).bendStiffness ≠
          (mkPetal i tp cx cy br rnd).bendStiffness) := by
  have hreset : ∀ (p : Petal) (r : ℝ), 0 ≤ r → r ≤ 1 →
      0.8 ≤ (resetCuriosityStiffness r p).bendStiffness ∧
      (resetCuriosityStiffness r p).bendStiffness ≤ 1.2 := by
    intro p r h0 h1
    unfold resetCuriosityStiffness randomRange
    constructor <;> [nlinarith; nlinarith]
  have hbase : ∀ (i tp : ℕ) (cx cy br : ℝ) (rnd : PetalRandom), 0 ≤ rnd.rBendStiff →
      rnd.rBendStiff ≤ 1 →
      0.08 ≤ (mkPetal i tp cx cy br rnd).bendStiffness ∧
      (mkPetal i tp cx cy br rnd).bendStiffness ≤ 0.15 := by
    intro i tp cx cy br rnd h0 h1
    unfold mkPetal randomRange
    constructor <;> [nlinarith; nlinarith]
  refine ⟨?_, ?_, hreset, hbase, ?_⟩
  · intro p a hb0 hb2 ha1 ha2
    have hiff := wrapOnce_lt_iff p.baseAngle a hb0 hb2 ha1 ha2
    have hshow : (setCuriositySideStiffness a p).bendStiffness =
        (if (if |p.baseAngle - a| > Real.pi then Real.pi * 2 - |p.baseAngle - a|
            else |p.baseAngle - a|) < Real.pi / 2 then (1.5 : ℝ) else 1) := rfl
    rw [hshow]
    constructor
    · constructor
      · intro h15
        by_contra hnot
        rw [if_neg (fun hlt => hnot (hiff.mp hlt))] at h15
        norm_num at h15
      · intro hor
        rw [if_pos (hiff.mpr hor)]
    · intro hnot
      rw [if_neg (fun hlt => hnot (hiff.mp hlt))]
  · -- the concrete misclassification: a = -2 boosts petal 35 (base angle
    -- 35π/18, more than 90° away modulo full turns)
    have hπ := Real.pi_pos
    have hπlt := Real.pi_lt_d2
    have hπgt := Real.pi_gt_d6
    have hba : (defaultPetal 35).baseAngle = 35 / 36 * Real.pi * 2 := by
      norm_num [defaultPetal, mkPetal]
    constructor
    · show (if (if |(defaultPetal 35).baseAngle - (-2)| > Real.pi
          then Real.pi * 2 - |(defaultPetal 35).baseAngle - (-2)|
          else |(defaultPetal 35).baseAngle - (-2)|) < Real.pi / 2
        then (1.5 : ℝ) else 1) = 1.5
      rw [hba]
      have habs : |35 / 36 * Real.pi * 2 - (-2 : ℝ)| = 35 / 36 * Real.pi * 2 + 2 := by
        rw [abs_of_nonneg (by linarith)]
        ring
      rw [habs, if_pos (show 35 / 36 * Real.pi * 2 + 2 > Real.pi by linarith),
        if_pos (show Real.pi * 2 - (35 / 36 * Real.pi * 2 + 2) < Real.pi / 2 by linarith)]
    · rw [hba]
      rintro ⟨k, hk⟩
      rcases le_or_lt k 1 with hk1 | hk2
      · have hkr : (k : ℝ) ≤ 1 := by exact_mod_cast hk1
        have h1 : Real.pi / 2 < 35 / 36 * Real.pi * 2 - (-2) - 2 * Real.pi * (k : ℝ) := by
          nlinarith [mul_nonneg Real.pi_pos.le (sub_nonneg.mpr hkr)]
        have := le_abs_self (35 / 36 * Real.pi * 2 - (-2) - 2 * Real.pi * (k : ℝ))
        linarith
      · have hkr : (2 : ℝ) ≤ (k : ℝ) := by
          have : (2 : ℤ) ≤ k := by omega
          exact_mod_cast this
        have h1 : Real.pi / 2 < 2 * Real.pi * (k : ℝ) - (35 / 36 * Real.pi * 2 - (-2)) := by
          nlinarith [mul_nonneg Real.pi_pos.le (sub_nonneg.mpr hkr)]
        have := neg_abs_le (35 / 36 * Real.pi * 2 - (-2) - 2 * Real.pi * (k : ℝ))
        linarith
  · intro p r i tp cx cy br rnd hr0 hr1 hb0 hb1
    have h1 := hreset p r hr0 hr1
    have h2 := hbase i tp cx cy br rnd hb0 hb1
    intro heq
    rw [heq] at h1
    linarith [h1.1, h2.2]

/-- Witness for C8 at concrete inputs: with `a = 0` (inside the caller's
`(-π, π]` range), the petal at base angle 0 is boosted to 1.5; a reset
with draw 1/2 gives stiffness 1, inside `[0.8, 1.2]` and distinct from
the baseline 0.115. -/
theorem curiosity_side_boost_and_reset_witness :
    (setCuriositySideStiffness 0 (defaultPetal 0)).bendStiffness = 1.5 ∧
    0.8 ≤ (resetCuriosityStiffness (1/2) (defaultPetal 0)).bendStiffness ∧
    (resetCuriosityStiffness (1/2) (defaultPetal 0)).bendStiffness ≠
      (defaultPetal 0).bendStiffness := by
  have h := curiosity_side_boost_and_reset
  have hbase0 : (defaultPetal 0).baseAngle = 0 := by
    norm_num [defaultPetal, mkPetal]
  have hwithin : withinQuarterTurn (defaultPetal 0).baseAngle 0 := by
    refine ⟨0, ?_⟩
    rw [hbase0]
    simp [Real.pi_pos]
  refine ⟨?_, ?_, ?_⟩
  · exact (h.1 (defaultPetal 0) 0 (le_of_eq hbase0.symm)
      (by rw [hbase0]; positivity) (by linarith [Real.pi_pos])
      (by positivity)).1.mpr (Or.inl hwithin)
  · exact (h.2.2.1 (defaultPetal 0) (1/2) (by norm_num) (by norm_num)).1
  · exact h.2.2.2.2 (defaultPetal 0) (1/2) 0 36 0 0 100 defaultRandom
      (by norm_num) (by norm_num) (by norm_num [defaultRandom]) (by norm_num [defaultRandom])

/-! ## Petal tip hit-test (C4) -/

lemma containsPoint_iff (p : Petal) (px py cx cy : ℝ) :
    containsPoint p px py cx cy ↔
      (p.visible = true ∧ ¬p.bloomProgress < 0.5 ∧
       ¬(hypot (px - cx) (py - cy) > p.length * p.scale * p.bloomProgress ∨
         hypot (px - cx) (py - cy) < p.length * 0.1) ∧
       ((if |atan2 (py - cy) (px - cx) - displayAngle p| > Real.pi
         then Real.pi * 2 - |atan2 (py - cy) (px - cx) - displayAngle p|
         else |atan2 (py - cy) (px - cx) - displayAngle p|) <
        p.width * (1 - hypot (px - cx) (py - cy) / (p.length * p.scale * p.bloomProgress) * 0.5)
          / hypot (px - cx) (py - cy))) :=
  Iff.rfl

lemma hypot_cos_sin (x : ℝ) : hypot (Real.cos x) (Real.sin x) = 1 := by
  unfold hypot
  rw [Real.cos_sq_add_sin_sq, Real.sqrt_one]

/-- C4 is violated by the code: at full bloom with neutral variation
draws, the exact tip of petal 19 (computed by `getTipPosition`) is
contained by petal 20 as well.  The tip's `atan2` angle is `-17π/18`
while petal 20's display angle is `20π/18`, so the raw angular difference
`37π/18` exceeds `2π`; the single wrap `2π - 37π/18 = -π/18` is negative
and therefore passes the width test `angleDiff < widthAtPoint` even
though the true angular distance (10°) is larger than the tolerance. -/
theorem petal_tip_contained_by_neighbor :
    containsPoint { defaultPetal 20 with visible := true, bloomProgress := 1 }
      (getTipPosition { defaultPetal 19 with visible := true, bloomProgress := 1 } 0 0).1
      (getTipPosition { defaultPetal 19 with visible := true, bloomProgress := 1 } 0 0).2
      0 0 := by
  have hπ := Real.pi_pos
  set θ : ℝ := 19 * Real.pi / 18 with hθ
  have h19angle :
      displayAngle { defaultPetal 19 with visible := true, bloomProgress := 1 } = θ := by
    unfold displayAngle defaultPetal mkPetal
    push_cast
    ring
  have h19len :
      ({ defaultPetal 19 with visible := true, bloomProgress := 1 } : Petal).length = 80 := by
    norm_num [defaultPetal, mkPetal, randomRange, defaultRandom]
  have h19scale :
      ({ defaultPetal 19 with visible := true, bloomProgress := 1 } : Petal).scale = 1 := rfl
  have htipx :
      (getTipPosition { defaultPetal 19 with visible := true, bloomProgress := 1 } 0 0).1 =
        Real.cos θ * 80 := by
    unfold getTipPosition
    rw [h19angle, h19len, h19scale]
    norm_num
  have htipy :
      (getTipPosition { defaultPetal 19 with visible := true, bloomProgress := 1 } 0 0).2 =
        Real.sin θ * 80 := by
    unfold getTipPosition
    rw [h19angle, h19len, h19scale]
    norm_num
  have h20angle :
      displayAngle { defaultPetal 20 with visible := true, bloomProgress := 1 } =
        20 * Real.pi / 18 := by
    unfold displayAngle defaultPetal mkPetal
    push_cast
    ring
  have h20len :
      ({ defaultPetal 20 with visible := true, bloomProgress := 1 } : Petal).length = 80 := by
    norm_num [defaultPetal, mkPetal, randomRange, defaultRandom]
  have h20wid :
      ({ defaultPetal 20 with visible := true, bloomProgress := 1 } : Petal).width = 15 := by
    norm_num [defaultPetal, mkPetal, randomRange, defaultRandom]
  have h20scale :
      ({ defaultPetal 20 with visible := true, bloomProgress := 1 } : Petal).scale = 1 := rfl
  have h20bloom :
      ({ defaultPetal 20 with visible := true, bloomProgress := 1 } : Petal).bloomProgress
        = 1 := rfl
  have hdist : hypot (Real.cos θ * 80 - 0) (Real.sin θ * 80 - 0) = 80 := by
    rw [sub_zero, sub_zero, hypot_scale _ _ 80 (by norm_num), hypot_cos_sin]
    norm_num
  have hatan : atan2 (Real.sin θ * 80 - 0) (Real.cos θ * 80 - 0) = θ - 2 * Real.pi := by
    rw [sub_zero, sub_zero]
    unfold atan2
    have hIoc : θ - 2 * Real.pi ∈ Set.Ioc (-Real.pi) Real.pi := by
      rw [Set.mem_Ioc, hθ]
      constructor <;> linarith
    have hz : (⟨Real.cos θ * 80, Real.sin θ * 80⟩ : ℂ) =
        (80 : ℝ) * (Complex.cos ((θ - 2 * Real.pi : ℝ) : ℂ)
          + Complex.sin ((θ - 2 * Real.pi : ℝ) : ℂ) * Complex.I) := by
      apply Complex.ext <;>
        simp only [Complex.mul_re, Complex.mul_im, Complex.add_re, Complex.add_im,
          Complex.cos_ofReal_re, Complex.sin_ofReal_re, Complex.cos_ofReal_im,
          Complex.sin_ofReal_im, Complex.I_re, Complex.I_im, Complex.ofReal_re,
          Complex.ofReal_im, mul_zero, zero_mul, mul_one, sub_zero, add_zero, zero_add,
          neg_zero] <;>
        simp only [Real.cos_sub_two_pi, Real.sin_sub_two_pi] <;> ring
    rw [hz, Complex.arg_real_mul _ (by norm_num : (0:ℝ) < 80),
      Complex.arg_cos_add_sin_mul_I hIoc]
  rw [containsPoint_iff, htipx, htipy, h20angle, h20len, h20wid, h20scale, h20bloom,
    hdist, hatan]
  refine ⟨rfl, by norm_num, by norm_num, ?_⟩
  have hdiffval : θ - 2 * Real.pi - 20 * Real.pi / 18 = -(37 * Real.pi / 18) := by
    rw [hθ]
    ring
  rw [hdiffval, abs_neg, abs_of_pos (by positivity),
    if_pos (by linarith : 37 * Real.pi / 18 > Real.pi)]
  have : Real.pi * 2 - 37 * Real.pi / 18 = -(Real.pi / 18) := by ring
  rw [this]
  have hw : (15 : ℝ) * (1 - 80 / (80 * 1 * 1) * 0.5) / 80 = 3 / 32 := by norm_num
  rw [hw]
  linarith

/-! ## Stem (`Stem.js`)

Verlet-integrated segment chain with leaves.  The `Math.random()` impulse
of `triggerSlowSway` is outside the per-frame `update`, which is
deterministic given `deltaTime`, `wind` and the wall clock `time`. -/

def cubicOut (t : ℝ) : ℝ := 1 - (1 - t) ^ 3

structure StemSeg where
  x : ℝ
  y : ℝ
  prevX : ℝ
  prevY : ℝ
  velocityX : ℝ
  velocityY : ℝ
  flexibility : ℝ

structure Leaf where
  segmentIndex : ℕ
  size : ℝ
  baseAngle : ℝ
  angle : ℝ
  angleVelocity : ℝ
  unfold : ℝ
  side : ℝ

structure Stem where
  baseX : ℝ
  baseY : ℝ
  height : ℝ
  segmentCount : ℕ
  segments : List StemSeg
  stiffness : ℝ
  damping : ℝ
  gravity : ℝ
  windResponse : ℝ
  angle : ℝ
  angularVelocity : ℝ
  secondaryWave : ℝ
  waveSpeed : ℝ
  leaves : List Leaf
  growthProgress : ℝ
  visible : Bool
  slowMoActive : Bool
  slowMoProgress : ℝ

def initSegments (height : ℝ) (segmentCount : ℕ) : List StemSeg :=
  (List.range (segmentCount + 1)).map fun i =>
    { x := 0, y := -(i : ℝ) * (height / segmentCount)
      prevX := 0, prevY := -(i : ℝ) * (height / segmentCount)
      velocityX := 0, velocityY := 0
      flexibility := 0.3 + ((i : ℝ) / segmentCount) * 0.7 }

def mkLeaves : List Leaf :=
  [{ segmentIndex := 2, size := 18, baseAngle := -0.5, angle := -0.5
     angleVelocity := 0, unfold := 0, side := -1 },
   { segmentIndex := 4, size := 14, baseAngle := 0.6, angle := 0.6
     angleVelocity := 0, unfold := 0, side := 1 },
   { segmentIndex := 5, size := 10, baseAngle := -0.4, angle := -0.4
     angleVelocity := 0, unfold := 0, side := -1 }]

def mkStem (baseX baseY height : ℝ) : Stem :=
  { baseX := baseX, baseY := baseY, height := height, segmentCount := 8
    segments := initSegments height 8
    stiffness := 0.4, damping := 0.88, gravity := 0.01, windResponse := 0.15
    angle := 0, angularVelocity := 0, secondaryWave := 0, waveSpeed := 2.5
    leaves := mkLeaves, growthProgress := 0, visible := false
    slowMoActive := false, slowMoProgress := 0 }

def startGrowth (s : Stem) : Stem := { s with visible := true, growthProgress := 0 }

def zeroSeg : StemSeg := ⟨0, 0, 0, 0, 0, 0, 0⟩

/-- Per-segment verlet integration (the body of the first `for` loop of
`Stem.update`, applied to segments `1..activeSegments`). -/
def stemIntegrate (dt : ℝ) (wind : ℝ × ℝ) (time : ℝ) (s : Stem) (slowMo : Bool × ℝ)
    (activeSegments : ℕ) (i : ℕ) (seg : StemSeg) : StemSeg :=
  if 1 ≤ i ∧ i ≤ activeSegments then
    let heightRatio := (i : ℝ) / (s.segmentCount : ℝ)
    let windForce := wind.1 * s.windResponse * seg.flexibility
    let windForceY := wind.2 * s.windResponse * 0.3
    let swayPhase := time * 1.2 + (i : ℝ) * 0.3
    let naturalSwayForce := Real.sin swayPhase * 0.3 * seg.flexibility
    let slowMoForce :=
      if slowMo.1 = true then
        Real.sin (slowMo.2 * 4) * Real.exp (-slowMo.2 * 0.8) * 3 * heightRatio
      else 0
    let vx := (seg.x - seg.prevX) * s.damping
    let vy := (seg.y - seg.prevY) * s.damping
    { seg with prevX := seg.x, prevY := seg.y
               x := seg.x + vx + (windForce + naturalSwayForce + slowMoForce) * dt * 60
               y := seg.y + vy + (windForceY - s.gravity) * dt * 60 }
  else seg

/-- One distance-constraint relaxation at segment `i` (body of the inner
`for` loop of the constraint pass; segment `i-1` has already been relaxed
this iteration). -/
def stemConstrain (segmentLength stiffness : ℝ) (segs : List StemSeg) (i : ℕ) :
    List StemSeg :=
  match segs.get? i, segs.get? (i - 1) with
  | some seg, some prevSeg =>
      let dx := seg.x - prevSeg.x
      let dy := seg.y - prevSeg.y
      let distance0 := Real.sqrt (dx * dx + dy * dy)
      let distance := if distance0 = 0 then 0.001 else distance0
      let diff := (segmentLength - distance) / distance
      let offsetX := dx * diff * 0.5
      let offsetY := dy * diff * 0.5
      let seg1 := { seg with x := seg.x + offsetX * stiffness
                             y := seg.y + offsetY * stiffness }
      let uprightForce : ℝ := -seg1.x * 0.02 * (1 - seg1.flexibility * 0.5)
      segs.set i { seg1 with x := seg1.x + uprightForce }
  | _, _ => segs

/-- Leaf spring physics (body of the final `forEach` of `Stem.update`). -/
def stemLeafStep (secondaryWave : ℝ) (segments : List StemSeg) (activeSegments : ℕ)
    (leaf : Leaf) : Leaf :=
  if leaf.unfold ≤ 0 then leaf else
  let seg := segments.getD (min leaf.segmentIndex activeSegments) zeroSeg
  let segVelocity := seg.x - seg.prevX
  let targetAngle := leaf.baseAngle + segVelocity * 0.5 + secondaryWave * leaf.side
  let angleDiff := targetAngle - leaf.angle
  let angleVelocity := (leaf.angleVelocity + angleDiff * 0.15) * 0.85
  { leaf with angleVelocity := angleVelocity, angle := leaf.angle + angleVelocity }

/-- Leaf unfolding inside the growth block of `Stem.update`. -/
def stemLeafUnfold (growthProgress : ℝ) (segmentCount : ℕ) (leaf : Leaf) : Leaf :=
  let threshold := 0.3 + ((leaf.segmentIndex : ℝ) / (segmentCount : ℝ)) * 0.4
  if growthProgress > threshold then
    { leaf with unfold := cubicOut (min 1 ((growthProgress - threshold) / 0.25)) }
  else leaf

/-- `Stem.update(deltaTime, wind)`, the wall clock explicit. -/
def stemUpdate (deltaTime : ℝ) (wind : ℝ × ℝ) (time : ℝ) (s : Stem) : Stem :=
  if s.visible = false then s else
  let dt := deltaTime * 0.001
  let growthProgress :=
    if s.growthProgress < 1 then min 1 (s.growthProgress + dt * 0.35) else s.growthProgress
  let leaves :=
    if s.growthProgress < 1 then s.leaves.map (stemLeafUnfold growthProgress s.segmentCount)
    else s.leaves
  let secondaryWave := Real.sin (time * s.waveSpeed) * 0.02
  let slowMo :=
    if s.slowMoActive = true then
      if s.slowMoProgress + dt > 3 then (false, (0 : ℝ)) else (true, s.slowMoProgress + dt)
    else (s.slowMoActive, s.slowMoProgress)
  let activeSegments := Nat.ceil ((s.segmentCount : ℝ) * growthProgress)
  let segments := s.segments.mapIdx (stemIntegrate dt wind time s slowMo activeSegments)
  let segmentLength := s.height / (s.segmentCount : ℝ)
  let segments := (List.range 3).foldl (fun segs _ =>
      (List.range' 1 activeSegments).foldl (stemConstrain segmentLength s.stiffness) segs)
    segments
  let segments :=
    match segments.get? 0 with
    | some seg0 => segments.set 0 { seg0 with x := 0, y := 0 }
    | none => segments
  let topSeg := segments.getD activeSegments zeroSeg
  let angle := atan2 topSeg.x (-topSeg.y)
  let leaves := leaves.map (stemLeafStep secondaryWave segments activeSegments)
  { s with growthProgress := growthProgress, leaves := leaves
           secondaryWave := secondaryWave
           slowMoActive := slowMo.1, slowMoProgress := slowMo.2
           segments := segments, angle := angle }

/-! ## CorePulse (`Stem.js`, second class)

The draw-only random `textureSeeds` are omitted; everything `update` and
`containsPoint` read is modelled. -/

structure ShimmerParticle where
  angle : ℝ
  distance : ℝ
  targetDistance : ℝ
  alpha : ℝ

structure OrbitParticle where
  angle : ℝ
  speed : ℝ
  distance : ℝ
  size : ℝ
  alpha : ℝ

structure CorePulse where
  x : ℝ
  y : ℝ
  radius : ℝ
  baseRadius : ℝ
  pulsePhase : ℝ
  pulseIntensity : ℝ
  breathingDepth : ℝ
  shimmerActive : Bool
  shimmerProgress : ℝ
  shimmerParticles : List ShimmerParticle
  glowIntensity : ℝ
  targetGlow : ℝ
  magnetOffset : ℝ × ℝ
  visible : Bool
  fillProgress : ℝ
  orbitParticles : List OrbitParticle
  orbitActive : Bool

def mkCorePulse (x y radius : ℝ) : CorePulse :=
  { x := x, y := y, radius := radius, baseRadius := radius
    pulsePhase := 0, pulseIntensity := centerPulseAmount, breathingDepth := 1
    shimmerActive := false, shimmerProgress := 0, shimmerParticles := []
    glowIntensity := 0, targetGlow := 0, magnetOffset := (0, 0)
    visible := false, fillProgress := 0, orbitParticles := [], orbitActive := false }

def startFill (c : CorePulse) : CorePulse := { c with visible := true, fillProgress := 0 }

/-- `CorePulse.containsPoint(px, py)` as a proposition. -/
def containsPointCore (c : CorePulse) (px py : ℝ) : Prop :=
  c.visible = true ∧ ¬c.fillProgress < 0.5 ∧
  hypot (px - (c.x + c.magnetOffset.1)) (py - (c.y + c.magnetOffset.2)) <
    c.radius * c.fillProgress

def zeroOrbit : OrbitParticle := ⟨0, 0, 0, 0, 0⟩

/-- `CorePulse.update(deltaTime, musicIntensity)`. -/
def coreUpdate (deltaTime musicIntensity : ℝ) (c : CorePulse) : CorePulse :=
  if c.visible = false then c else
  let fillProgress :=
    if c.fillProgress < 1 then min 1 (c.fillProgress + deltaTime * 0.0008)
    else c.fillProgress
  let pulsePhase := c.pulsePhase + deltaTime * 0.001 * centerPulseSpeed
  let breathe := Real.sin pulsePhase * c.pulseIntensity * c.breathingDepth
  let radius := c.baseRadius * (1 + breathe) * fillProgress
  let radius := if musicIntensity > 0 then radius * (1 + musicIntensity * 0.02) else radius
  let glowIntensity := lerp c.glowIntensity c.targetGlow 0.1
  let magnetOffset := (c.magnetOffset.1 * 0.95, c.magnetOffset.2 * 0.95)
  let shimmerProgress :=
    if c.shimmerActive = true then c.shimmerProgress + deltaTime / shimmerDuration
    else c.shimmerProgress
  let shimmerParticles :=
    if c.shimmerActive = true then
      c.shimmerParticles.map fun particle =>
        { particle with distance := lerp particle.distance particle.targetDistance 0.1
                        alpha := 1 - shimmerProgress }
    else c.shimmerParticles
  let shimmerEnds := c.shimmerActive = true ∧ 1 ≤ shimmerProgress
  let orbitParticles :=
    if c.orbitActive = true then
      c.orbitParticles.map fun particle =>
        { particle with angle := particle.angle + deltaTime * 0.002 * particle.speed
                        alpha := lerp particle.alpha 0.6 0.05 }
    else
      let faded := c.orbitParticles.map fun particle =>
        { particle with alpha := particle.alpha * 0.9 }
      if faded.length ≠ 0 ∧ (faded.headD zeroOrbit).alpha < 0.01 then [] else faded
  { c with fillProgress := fillProgress, pulsePhase := pulsePhase, radius := radius
           glowIntensity := glowIntensity, magnetOffset := magnetOffset
           shimmerProgress := shimmerProgress
           shimmerActive := if shimmerEnds then false else c.shimmerActive
           shimmerParticles := if shimmerEnds then [] else shimmerParticles
           orbitParticles := orbitParticles }

/-- C9: `update()` on Stem, Petal and CorePulse is a total no-op while the
subsystem is not yet visible (before `startGrowth` / `startBloom` /
`startFill`), and both hit tests answer "no hit" (rather than failing)
whenever the geometry is not yet valid — petal not visible or
`bloomProgress < 0.5`, core not visible or `fillProgress < 0.5`.  All
modelled functions are total, so no input makes them throw. -/
theorem update_noop_before_visible :
    (∀ (s : Stem) (deltaTime : ℝ) (wind : ℝ × ℝ) (time : ℝ), s.visible = false →
        stemUpdate deltaTime wind time s = s) ∧
    (∀ (p : Petal) (deltaTime : ℝ) (wind : ℝ × ℝ) (time : ℝ), p.visible = false →
        petalUpdate p deltaTime wind time = p) ∧
    (∀ (c : CorePulse) (deltaTime musicIntensity : ℝ), c.visible = false →
        coreUpdate deltaTime musicIntensity c = c) ∧
    (∀ (p : Petal) (px py cx cy : ℝ), p.visible = false ∨ p.bloomProgress < 0.5 →
        ¬containsPoint p px py cx cy) ∧
    (∀ (c : CorePulse) (px py : ℝ), c.visible = false ∨ c.fillProgress < 0.5 →
        ¬containsPointCore c px py) := by
  refine ⟨?_, ?_, ?_, ?_, ?_⟩
  · intro s deltaTime wind time hv
    unfold stemUpdate
    rw [if_pos hv]
  · intro p deltaTime wind time hv
    unfold petalUpdate
    rw [if_pos hv]
  · intro c deltaTime musicIntensity hv
    unfold coreUpdate
    rw [if_pos hv]
  · rintro p px py cx cy hguard ⟨hvis, hbloom, -⟩
    rcases hguard with h | h
    · rw [hvis] at h
      exact Bool.noConfusion h
    · exact hbloom h
  · rintro c px py hguard ⟨hvis, hfill, -⟩
    rcases hguard with h | h
    · rw [hvis] at h
      exact Bool.noConfusion h
    · exact hfill h

/-- Witness for C9 at concrete inputs: a freshly constructed stem and core
are invisible, so one `update` leaves them unchanged; a freshly
constructed petal and core report "no hit" everywhere. -/
theorem update_noop_before_visible_witness :
    stemUpdate 16 (1, 2) 3 (mkStem 0 500 300) = mkStem 0 500 300 ∧
    coreUpdate 16 0 (mkCorePulse 0 0 25) = mkCorePulse 0 0 25 ∧
    ¬containsPoint (defaultPetal 0) 1 2 0 0 ∧
    ¬containsPointCore (mkCorePulse 0 0 25) 0 0 := by
  have h := update_noop_before_visible
  exact ⟨h.1 (mkStem 0 500 300) 16 (1, 2) 3 rfl,
    h.2.2.1 (mkCorePulse 0 0 25) 16 0 rfl,
    h.2.2.2.1 (defaultPetal 0) 1 2 0 0 (Or.inl rfl),
    h.2.2.2.2 (mkCorePulse 0 0 25) 0 0 (Or.inl rfl)⟩

end

end Daisy
